import Mathlib

set_option maxRecDepth 100000

/-!
Verification development for an artificial-life simulation
(`config.py`, `agent.py`, `environment.py`).

The Python code is shallowly embedded: agents are records, the nutrient
field is a function `ℤ → ℤ → ℚ`, the per-tick spatial index
(`occupied` dict) is a function `ℤ × ℤ → Option ℕ` mapping a cell to the
index of its occupant inside the agent array, so that Python object
identity is modelled by list indices.  Every stochastic choice of the
Python code (`random.random`, `random.choice`, `random.shuffle`, the
per-gene mutation draws, the per-cell nutrient spawn mask) is passed in
explicitly as an oracle argument, so all definitions are deterministic
functions of the state plus the drawn randomness.  Floats are modelled
as exact rationals.  Render-only data (agent colors, the pygame event
payloads, the random agent ids) is omitted: nothing in the simulation
rules reads it back.
-/

/-! ## Configuration constants (config.py) -/

def GRID_WIDTH : ℤ := 100
def GRID_HEIGHT : ℤ := 100

def MAX_NUTRIENT : ℚ := 10
def NUTRIENT_SPAWN_RATE : ℚ := 1/20
def NUTRIENT_DECAY : ℚ := 199/200
def DIFFUSION_FACTOR : ℚ := 1/10
def DEAD_BODY_NUTRIENT : ℚ := 5

def SUN_MAX_INTENSITY : ℚ := 10
def SUN_PENETRATION_DEPTH : ℚ := 7/10
def PHOTOSYNTHESIS_RATE : ℚ := 1/2

def COLONY_SHARING_RATE : ℚ := 1/2

def MUTATION_RATE : ℚ := 1/20
def MUTATION_STRENGTH : ℚ := 1/10

/-- GENE_BOUNDS['metabolism'] -/
def GENE_BOUNDS_metabolism : ℚ × ℚ := (1/10, 2)
/-- GENE_BOUNDS['repro_threshold'] -/
def GENE_BOUNDS_repro_threshold : ℚ × ℚ := (10, 60)
/-- GENE_BOUNDS['sense_range'] -/
def GENE_BOUNDS_sense_range : ℚ × ℚ := (1, 5)
/-- GENE_BOUNDS['size'] -/
def GENE_BOUNDS_size : ℚ × ℚ := (1, 3)
/-- GENE_BOUNDS['photosynthesis_efficiency'] -/
def GENE_BOUNDS_photosynthesis_efficiency : ℚ × ℚ := (0, 1)
/-- GENE_BOUNDS['adhesion'] -/
def GENE_BOUNDS_adhesion : ℚ × ℚ := (0, 1)

def PREDATOR_THRESHOLD_ENERGY : ℚ := 40
def PREDATOR_THRESHOLD_SIZE : ℚ := 5/2
def PREDATOR_THRESHOLD_OFFSPRING : ℕ := 3
def PREDATOR_METABOLISM_PENALTY : ℚ := 3/2

def CYCLE_LENGTH : ℤ := 600
/-- DAY_RATIO in config.py: the fraction of the cycle that is day. -/
def DAY_FRAC : ℚ := 1/2
def NIGHT_METABOLISM_FACTOR : ℚ := 3/2
def NIGHT_MOVE_CHANCE : ℚ := 3/10

def PREDATOR_DAY_ACTIVITY : Bool := false
def PREDATOR_EAT_EFFICIENCY : ℚ := 4/5

/-! ## Genome (agent.py: the `genes` dict) -/

structure Genes where
  metabolism : ℚ
  repro_threshold : ℚ
  sense_range : ℚ
  size : ℚ
  photosynthesis_efficiency : ℚ
  adhesion : ℚ
deriving DecidableEq

/-- Python `max(mn, min(mx, v))`: clamp into a bounds pair. -/
def clampQ (mn mx v : ℚ) : ℚ := max mn (min mx v)

/-- Python's builtin `round` on the exact rational value: round half to even. -/
def pyRound (q : ℚ) : ℤ :=
  if q - ⌊q⌋ < 1/2 then ⌊q⌋
  else if q - ⌊q⌋ > 1/2 then ⌊q⌋ + 1
  else if ⌊q⌋ % 2 = 0 then ⌊q⌋ else ⌊q⌋ + 1

/-- mutate_genes, one real-valued gene: with probability MUTATION_RATE
(`roll < MUTATION_RATE`, `roll` the `random.random()` draw) perturb by
`val * u` where `u` is the `random.uniform(-MUTATION_STRENGTH, MUTATION_STRENGTH)`
draw, then clamp to the gene's bounds; otherwise copy unchanged. -/
def mutateVal (roll u mn mx val : ℚ) : ℚ :=
  if roll < MUTATION_RATE then clampQ mn mx (val + val * u) else val

/-- mutate_genes, the `sense_range` gene: `int(round(new_val))` before clamping. -/
def mutateValInt (roll u mn mx val : ℚ) : ℚ :=
  if roll < MUTATION_RATE then clampQ mn mx ((pyRound (val + val * u) : ℚ)) else val

/-- The twelve random draws one call of `Agent.mutate_genes` makes:
one `random.random()` roll and one `random.uniform(-s, s)` draw per gene. -/
structure MutRand where
  roll_metabolism : ℚ
  u_metabolism : ℚ
  roll_repro_threshold : ℚ
  u_repro_threshold : ℚ
  roll_sense_range : ℚ
  u_sense_range : ℚ
  roll_size : ℚ
  u_size : ℚ
  roll_photosynthesis_efficiency : ℚ
  u_photosynthesis_efficiency : ℚ
  roll_adhesion : ℚ
  u_adhesion : ℚ
deriving DecidableEq

/-- Agent.mutate_genes: an independently mutated copy of the genes
(the original dict is never modified — modelled by purity). -/
def mutate_genes (r : MutRand) (g : Genes) : Genes :=
  { metabolism := mutateVal r.roll_metabolism r.u_metabolism
      GENE_BOUNDS_metabolism.1 GENE_BOUNDS_metabolism.2 g.metabolism
    repro_threshold := mutateVal r.roll_repro_threshold r.u_repro_threshold
      GENE_BOUNDS_repro_threshold.1 GENE_BOUNDS_repro_threshold.2 g.repro_threshold
    sense_range := mutateValInt r.roll_sense_range r.u_sense_range
      GENE_BOUNDS_sense_range.1 GENE_BOUNDS_sense_range.2 g.sense_range
    size := mutateVal r.roll_size r.u_size
      GENE_BOUNDS_size.1 GENE_BOUNDS_size.2 g.size
    photosynthesis_efficiency := mutateVal r.roll_photosynthesis_efficiency
      r.u_photosynthesis_efficiency GENE_BOUNDS_photosynthesis_efficiency.1
      GENE_BOUNDS_photosynthesis_efficiency.2 g.photosynthesis_efficiency
    adhesion := mutateVal r.roll_adhesion r.u_adhesion
      GENE_BOUNDS_adhesion.1 GENE_BOUNDS_adhesion.2 g.adhesion }

/-- Every gene value lies inside its declared GENE_BOUNDS interval. -/
def genesInBounds (g : Genes) : Prop :=
  GENE_BOUNDS_metabolism.1 ≤ g.metabolism ∧ g.metabolism ≤ GENE_BOUNDS_metabolism.2 ∧
  GENE_BOUNDS_repro_threshold.1 ≤ g.repro_threshold ∧
    g.repro_threshold ≤ GENE_BOUNDS_repro_threshold.2 ∧
  GENE_BOUNDS_sense_range.1 ≤ g.sense_range ∧ g.sense_range ≤ GENE_BOUNDS_sense_range.2 ∧
  GENE_BOUNDS_size.1 ≤ g.size ∧ g.size ≤ GENE_BOUNDS_size.2 ∧
  GENE_BOUNDS_photosynthesis_efficiency.1 ≤ g.photosynthesis_efficiency ∧
    g.photosynthesis_efficiency ≤ GENE_BOUNDS_photosynthesis_efficiency.2 ∧
  GENE_BOUNDS_adhesion.1 ≤ g.adhesion ∧ g.adhesion ≤ GENE_BOUNDS_adhesion.2

instance (g : Genes) : Decidable (genesInBounds g) := by
  unfold genesInBounds; infer_instance

/-! ## Agent (agent.py) -/

structure Agent where
  x : ℤ
  y : ℤ
  energy : ℚ
  age : ℕ
  generation : ℤ
  is_alive : Bool
  is_predator : Bool
  offspring_count : ℕ
  genes : Genes
deriving DecidableEq

/-- Agent.photosynthesize: gain
`sunlight_intensity * photosynthesis_efficiency * PHOTOSYNTHESIS_RATE`,
added to energy. -/
def photosynthesize (sunlight_intensity : ℚ) (a : Agent) : Agent :=
  { a with energy :=
      a.energy + sunlight_intensity * a.genes.photosynthesis_efficiency * PHOTOSYNTHESIS_RATE }

/-- Agent.check_evolution: one-way transition to predator when energy,
size and offspring count all exceed their thresholds (the color update it
triggers is render-only and omitted). -/
def check_evolution (a : Agent) : Agent :=
  if a.is_predator = false ∧ a.energy > PREDATOR_THRESHOLD_ENERGY ∧
      a.genes.size > PREDATOR_THRESHOLD_SIZE ∧
      a.offspring_count ≥ PREDATOR_THRESHOLD_OFFSPRING
  then { a with is_predator := true }
  else a

/-- Agent.handle_colony on a list of neighbor agents.  The Python method
mutates `self` and each sticky neighbor in place and returns the
`attached` flag; here the updated self, the updated neighbor list (in
order) and the flag are returned.  Transfers are applied sequentially
against the current energy, exactly as in the source. -/
def handle_colony (self : Agent) (neighbors : List Agent) : Agent × List Agent × Bool :=
  if self.genes.adhesion < 1/2 then (self, neighbors, false)
  else
    neighbors.foldl
      (fun (acc : Agent × List Agent × Bool) other =>
        if other.genes.adhesion ≥ 1/2 then
          if |acc.1.energy - other.energy| > 1 then
            ({ acc.1 with energy :=
                 acc.1.energy - (acc.1.energy - other.energy) * COLONY_SHARING_RATE * (1/2) },
             acc.2.1 ++ [{ other with energy :=
                 other.energy + (acc.1.energy - other.energy) * COLONY_SHARING_RATE * (1/2) }],
             true)
          else (acc.1, acc.2.1 ++ [other], true)
        else (acc.1, acc.2.1 ++ [other], acc.2.2))
      (self, ([], false))

/-! ## sense_and_move (agent.py) -/

/-- The random draws one call of `Agent.sense_and_move` can consume:
the night-sluggishness roll, the random-walk roll, and the two
`random.choice([-1, 0, 1])` axis steps (`Fin 3`, mapped to -1/0/1). -/
structure MoveRand where
  nightRoll : ℚ
  walkRoll : ℚ
  dx : Fin 3
  dy : Fin 3
deriving DecidableEq

/-- random.choice([-1, 0, 1]). -/
def choiceStep (d : Fin 3) : ℤ := (d : ℤ) - 1

/-- The cells of the clipped scan window
`nutrient_grid[x_min:x_max, y_min:y_max]`, in NumPy C (row-major) order:
x outer, y inner — the order `np.argmax` scans the patch. -/
def windowCells (xmin xmax ymin ymax : ℤ) : List (ℤ × ℤ) :=
  (List.range (xmax - xmin).toNat).flatMap fun (i : ℕ) =>
    (List.range (ymax - ymin).toNat).map fun (j : ℕ) => (xmin + (i : ℤ), ymin + (j : ℤ))

/-- np.argmax over the patch: the first cell (in scan order) holding the
maximum value, paired with that value; `none` on an empty patch. -/
def bestCell (g : ℤ → ℤ → ℚ) : List (ℤ × ℤ) → Option ((ℤ × ℤ) × ℚ) → Option ((ℤ × ℤ) × ℚ)
  | [], acc => acc
  | c :: rest, none => bestCell g rest (some (c, g c.1 c.2))
  | c :: rest, some (b, v) =>
      bestCell g rest (if g c.1 c.2 > v then some (c, g c.1 c.2) else some (b, v))

/-- The random-walk tail of sense_and_move: with probability 0.2 take one
random step per axis, kept only if it stays inside the grid (paying
`0.2 * metabolism`); otherwise stay in place at no extra cost. -/
def randWalk (w h : ℤ) (r : MoveRand) (a : Agent) : Agent × ℤ × ℤ :=
  if r.walkRoll < 1/5 then
    if 0 ≤ a.x + choiceStep r.dx ∧ a.x + choiceStep r.dx < w ∧
        0 ≤ a.y + choiceStep r.dy ∧ a.y + choiceStep r.dy < h then
      ({ a with energy := a.energy - a.genes.metabolism * (1/5) },
       a.x + choiceStep r.dx, a.y + choiceStep r.dy)
    else (a, a.x, a.y)
  else (a, a.x, a.y)

/-- The body of sense_and_move after the base metabolic cost has been
deducted: anchored agents stay put; otherwise scan the clipped window of
radius `sense_range` for the best nutrient cell and step one cell toward
it (cost `0.5 * metabolism`), falling back to the random walk. -/
def moveBody (g : ℤ → ℤ → ℚ) (w h : ℤ) (attached : Bool) (r : MoveRand) (a : Agent) :
    Agent × ℤ × ℤ :=
  if attached then (a, a.x, a.y)
  else
    match bestCell g
        (windowCells (max 0 (a.x - ⌊a.genes.sense_range⌋))
          (min w (a.x + ⌊a.genes.sense_range⌋ + 1))
          (max 0 (a.y - ⌊a.genes.sense_range⌋))
          (min h (a.y + ⌊a.genes.sense_range⌋ + 1))) none with
    | some bv =>
        if bv.2 > -1 ∧ (bv.1.1 ≠ a.x ∨ bv.1.2 ≠ a.y) then
          ({ a with energy := a.energy - a.genes.metabolism * (1/2) },
           a.x + Int.sign (bv.1.1 - a.x), a.y + Int.sign (bv.1.2 - a.y))
        else randWalk w h r a
    | none => randWalk w h r a

/-- Agent.sense_and_move: deduct the (day/night and predator adjusted)
metabolic cost, then decide the target cell.  Returns the updated agent
(energy only — the environment applies the move) and the target cell. -/
def sense_and_move (g : ℤ → ℤ → ℚ) (w h : ℤ) (is_night attached : Bool) (r : MoveRand)
    (a : Agent) : Agent × ℤ × ℤ :=
  if a.is_predator then
    if is_night = false ∧ PREDATOR_DAY_ACTIVITY = false then
      ({ a with energy :=
           a.energy - a.genes.metabolism * PREDATOR_METABOLISM_PENALTY * (1/10) },
       a.x, a.y)
    else
      moveBody g w h attached r
        { a with energy := a.energy - a.genes.metabolism * PREDATOR_METABOLISM_PENALTY }
  else
    if is_night then
      if r.nightRoll > NIGHT_MOVE_CHANCE then
        ({ a with energy := a.energy - a.genes.metabolism * NIGHT_METABOLISM_FACTOR },
         a.x, a.y)
      else
        moveBody g w h attached r
          { a with energy := a.energy - a.genes.metabolism * NIGHT_METABOLISM_FACTOR }
    else
      moveBody g w h attached r { a with energy := a.energy - a.genes.metabolism }

/-! ## Nutrient field update (environment.py, Environment.update_nutrients)

The field is a function `ℤ → ℤ → ℚ`; the toroidal `np.pad(..., mode='wrap')`
neighbor access is Euclidean mod by the grid size.  The random spawn mask
`np.random.random((W, H)) < NUTRIENT_SPAWN_RATE` is modelled by an oracle
`u` of per-cell uniform draws.  The spawn rate, diffusion constant and
decay appear as parameters so that scenario configurations can be stated;
`update_nutrients` instantiates them with the config.py values. -/

def wrapX (x : ℤ) : ℤ := x % GRID_WIDTH
def wrapY (y : ℤ) : ℤ := y % GRID_HEIGHT

/-- Environment.update_nutrients with explicit rate/diffusion/decay
constants: spontaneous regeneration (+2.0 where the mask fires), toroidal
4-neighbor diffusion `new = old * (1 - 4k) + sum(neighbors) * k`, decay,
then clamping into `[0, MAX_NUTRIENT]` — in that fixed order. -/
def updateNutrientsWith (rate k decay : ℚ) (u : ℤ → ℤ → ℚ) (g : ℤ → ℤ → ℚ) :
    ℤ → ℤ → ℚ :=
  let g1 := fun x y => if u x y < rate then g x y + 2 else g x y
  let g2 := fun x y =>
    g1 x y * (1 - 4 * k) +
      (g1 (wrapX (x - 1)) y + g1 (wrapX (x + 1)) y +
        g1 x (wrapY (y - 1)) + g1 x (wrapY (y + 1))) * k
  fun x y => clampQ 0 MAX_NUTRIENT (g2 x y * decay)

/-- Environment.update_nutrients at the config.py constants. -/
def update_nutrients (u : ℤ → ℤ → ℚ) (g : ℤ → ℤ → ℚ) : ℤ → ℤ → ℚ :=
  updateNutrientsWith NUTRIENT_SPAWN_RATE DIFFUSION_FACTOR NUTRIENT_DECAY u g

/-! ## Tick state and the per-agent pipeline (Environment.update_agents) -/

/-- The mutable state threaded through one tick of `update_agents`:
the nutrient field, the agent store (tick-start agents at their original
list positions, newborns appended behind them), the spatial hash
`occupied` (cell ↦ index into `agents`), and the list of indices of
agents that starved this tick (`dead_agents`). -/
structure TickState where
  nutrients : ℤ → ℤ → ℚ
  agents : List Agent
  occupied : ℤ × ℤ → Option ℕ
  dead : List ℕ

/-- The randomness one agent's turn can consume: its sense_and_move
draws, the `random.shuffle` of the four reproduction neighbors (an index
order into the unshuffled list), and its mutate_genes draws. -/
structure AgentRand where
  move : MoveRand
  reproOrder : List (Fin 4)
  mutDraws : MutRand

/-- The sunlight gradient cell value (environment.py `__init__`):
`SUN_MAX_INTENSITY * (1 - (y / GRID_HEIGHT) * (1 - SUN_PENETRATION_DEPTH))`,
a function of the row only. -/
def sunlightAt (y : ℤ) : ℚ :=
  SUN_MAX_INTENSITY * (1 - ((y : ℚ) / (GRID_HEIGHT : ℚ)) * (1 - SUN_PENETRATION_DEPTH))

/-- Photosynthesis step of the loop: sunlight at the agent's cell, zero
at night. -/
def phasePhoto (night : Bool) (st : TickState) (i : ℕ) : TickState :=
  match st.agents.get? i with
  | none => st
  | some a =>
      let sun := if night then 0 else sunlightAt a.y
      { st with agents := st.agents.set i (photosynthesize sun a) }

/-- The 8-connected neighbor offsets, in the `for dx in range(-1, 2): for
dy in range(-1, 2)` order with `(0, 0)` skipped. -/
def neighborOffsets : List (ℤ × ℤ) :=
  [(-1, -1), (-1, 0), (-1, 1), (0, -1), (0, 1), (1, -1), (1, 0), (1, 1)]

/-- Agent.handle_colony as called by the loop: the neighbor objects are
the indexed entries of the store, and the sequential pairwise transfers
mutate both parties in place. -/
def handleColonyIdx (st : TickState) (i : ℕ) (nbrs : List ℕ) : TickState × Bool :=
  match st.agents.get? i with
  | none => (st, false)
  | some a0 =>
      if a0.genes.adhesion < 1/2 then (st, false)
      else
        nbrs.foldl
          (fun acc j =>
            match acc.1.agents.get? i, acc.1.agents.get? j with
            | some s, some o =>
                if o.genes.adhesion ≥ 1/2 then
                  if |s.energy - o.energy| > 1 then
                    ({ acc.1 with agents :=
                         ((acc.1.agents.set i
                             { s with energy :=
                                 s.energy - (s.energy - o.energy) * COLONY_SHARING_RATE * (1/2) }).set j
                             { o with energy :=
                                 o.energy + (s.energy - o.energy) * COLONY_SHARING_RATE * (1/2) }) },
                     true)
                  else (acc.1, true)
                else acc
            | _, _ => acc)
          (st, false)

/-- Colony step of the loop: only sticky agents gather their 8-connected
neighbors from the spatial hash and interact; the returned flag is
`is_attached`. -/
def phaseColony (st : TickState) (i : ℕ) : TickState × Bool :=
  match st.agents.get? i with
  | none => (st, false)
  | some a =>
      if a.genes.adhesion ≥ 1/2 then
        handleColonyIdx st i
          (neighborOffsets.filterMap fun d => st.occupied (a.x + d.1, a.y + d.2))
      else (st, false)

/-- Movement resolution against the spatial hash, for a mover `a2` (the
record sense_and_move returned, already written at index `i`) that wants
cell `(tx, ty)`: an empty cell is taken (deleting the mover's old entry
if it still owns it); an occupied cell triggers predation exactly when
the mover is a predator, the occupant is a live non-predator, and the
mover's size gene strictly exceeds the occupant's — the mover then gains
`occupant.energy * PREDATOR_EAT_EFFICIENCY + DEAD_BODY_NUTRIENT`, the
occupant is marked dead, and the mover overwrites the index entry;
otherwise the move is rejected silently. -/
def resolveMove (st : TickState) (i : ℕ) (a2 : Agent) (tx ty : ℤ) : TickState :=
  match st.occupied (tx, ty) with
  | none =>
      let occ1 := if st.occupied (a2.x, a2.y) = some i
        then fun p => if p = (a2.x, a2.y) then none else st.occupied p
        else st.occupied
      { st with agents := st.agents.set i { a2 with x := tx, y := ty },
                occupied := fun p => if p = (tx, ty) then some i else occ1 p }
  | some j =>
      match st.agents.get? j with
      | none => st
      | some o =>
          if a2.is_predator = true ∧ o.is_predator = false ∧ o.is_alive = true ∧
              a2.genes.size > o.genes.size then
            let a3 := { a2 with energy :=
                a2.energy + o.energy * PREDATOR_EAT_EFFICIENCY + DEAD_BODY_NUTRIENT }
            let st1 := { st with agents :=
                (st.agents.set j { o with is_alive := false }).set i a3 }
            let occ1 := if st1.occupied (a2.x, a2.y) = some i
              then fun p => if p = (a2.x, a2.y) then none else st1.occupied p
              else st1.occupied
            { st1 with agents := st1.agents.set i { a3 with x := tx, y := ty },
                       occupied := fun p => if p = (tx, ty) then some i else occ1 p }
          else st

/-- Movement step of the loop: ask the agent for its target via
sense_and_move (writing back its energy deduction), then resolve the
move against the index. -/
def phaseMove (night attached : Bool) (r : MoveRand) (st : TickState) (i : ℕ) : TickState :=
  match st.agents.get? i with
  | none => st
  | some a =>
      let res := sense_and_move st.nutrients GRID_WIDTH GRID_HEIGHT night attached r a
      resolveMove { st with agents := st.agents.set i res.1 } i res.1 res.2.1 res.2.2

/-- Eating step of the loop: non-predators consume
`min(available, 2.0)` nutrient from their current cell, converted 1:1
to energy; predators never eat the field. -/
def phaseEat (st : TickState) (i : ℕ) : TickState :=
  match st.agents.get? i with
  | none => st
  | some a =>
      if a.is_predator then st
      else
        { st with
          agents := st.agents.set i
            { a with energy := a.energy + min (st.nutrients a.x a.y) 2 },
          nutrients := fun p q =>
            if p = a.x ∧ q = a.y
            then st.nutrients p q - min (st.nutrients a.x a.y) 2
            else st.nutrients p q }

/-- Offspring creation at the vacant in-bounds cell `c`: split the
parent's energy exactly in half, mutate its genes for the child, give
the child `generation = parent.generation + 1`, bump the parent's
offspring_count, append the child behind the population and register it
in the index. -/
def spawnChild (mr : MutRand) (st : TickState) (i : ℕ) (a : Agent) (c : ℤ × ℤ) : TickState :=
  { st with
    agents :=
      (st.agents.set i
          { a with energy := a.energy / 2, offspring_count := a.offspring_count + 1 }) ++
        [{ x := c.1, y := c.2, energy := a.energy / 2, age := 0,
           generation := a.generation + 1, is_alive := true, is_predator := false,
           offspring_count := 0, genes := mutate_genes mr a.genes }],
    occupied := fun p => if p = c then some st.agents.length else st.occupied p }

/-- The scan over the shuffled neighbor cells: the first one that is
inside the grid and vacant receives the (single) child, and the scan
stops. -/
def reproScan (mr : MutRand) : TickState → ℕ → List (ℤ × ℤ) → TickState
  | st, _, [] => st
  | st, i, c :: rest =>
      if 0 ≤ c.1 ∧ c.1 < GRID_WIDTH ∧ 0 ≤ c.2 ∧ c.2 < GRID_HEIGHT then
        if st.occupied c = none then
          match st.agents.get? i with
          | none => st
          | some a => spawnChild mr st i a c
        else reproScan mr st i rest
      else reproScan mr st i rest

/-- The unshuffled reproduction neighbor list
`[(x+1, y), (x-1, y), (x, y+1), (x, y-1)]`. -/
def reproNeighbor (a : Agent) : Fin 4 → ℤ × ℤ
  | 0 => (a.x + 1, a.y)
  | 1 => (a.x - 1, a.y)
  | 2 => (a.x, a.y + 1)
  | 3 => (a.x, a.y - 1)

/-- Reproduction step of the loop: fires only when
`energy > repro_threshold`; `order` is the permutation `random.shuffle`
produced. -/
def phaseRepro (mr : MutRand) (order : List (Fin 4)) (st : TickState) (i : ℕ) : TickState :=
  match st.agents.get? i with
  | none => st
  | some a =>
      if a.energy > a.genes.repro_threshold then
        reproScan mr st i (order.map (reproNeighbor a))
      else st

/-- Evolution check, aging and the starvation death check closing an
agent's turn: `energy ≤ 0` marks it dead and records it in
`dead_agents`. -/
def phaseEnd (st : TickState) (i : ℕ) : TickState :=
  match st.agents.get? i with
  | none => st
  | some a =>
      let a2 := { check_evolution a with age := a.age + 1 }
      if a2.energy ≤ 0 then
        { st with agents := st.agents.set i { a2 with is_alive := false },
                  dead := st.dead ++ [i] }
      else { st with agents := st.agents.set i a2 }

/-- One agent's full turn, in the fixed source order: photosynthesize,
colony-interact, move/collide/predate, eat, reproduce, evolve/age/die. -/
def stepAgent (night : Bool) (r : AgentRand) (st : TickState) (i : ℕ) : TickState :=
  let st1 := phasePhoto night st i
  let pc := phaseColony st1 i
  let st3 := phaseMove night pc.2 r.move pc.1 i
  let st4 := phaseEat st3 i
  let st5 := phaseRepro r.mutDraws r.reproOrder st4 i
  phaseEnd st5 i

/-- The loop over the tick-start population (newborns, appended behind
index `n0`, are not iterated this tick). -/
def runLoop (night : Bool) (rand : ℕ → AgentRand) (st : TickState) (n0 : ℕ) : TickState :=
  (List.range n0).foldl (fun s i => stepAgent night (rand i) s i) st

/-- The surviving tick-start agents: `[a for a in self.agents if a.is_alive]`. -/
def survivorsPart (st : TickState) (n0 : ℕ) : List Agent :=
  (st.agents.take n0).filter fun a => a.is_alive

/-- The newborns of the tick, appended unfiltered: `+ new_borns`. -/
def newbornsPart (st : TickState) (n0 : ℕ) : List Agent :=
  st.agents.drop n0

/-- Corpse recycling: every agent in `dead_agents` deposits
DEAD_BODY_NUTRIENT at its last occupied cell. -/
def recycleDead (st : TickState) : ℤ → ℤ → ℚ :=
  st.dead.foldl
    (fun g j =>
      match st.agents.get? j with
      | some c => fun p q =>
          if p = c.x ∧ q = c.y then g p q + DEAD_BODY_NUTRIENT else g p q
      | none => g)
    st.nutrients

/-- The environment state `update_agents` reads and writes (the sunlight
gradient is a pure function of the row and needs no field). -/
structure Env where
  nutrients : ℤ → ℤ → ℚ
  agents : List Agent
  global_time : ℤ
  is_night : Bool

/-- The spatial hash rebuilt at tick start:
`{(a.x, a.y): a for a in self.agents}` — on a shared cell the later
agent overwrites the earlier one. -/
def buildOccupied (l : List Agent) : ℤ × ℤ → Option ℕ :=
  l.enum.foldl
    (fun occ ia => fun p => if p = (ia.2.x, ia.2.y) then some ia.1 else occ p)
    (fun _ => none)

/-- The advanced clock's `is_night` flag:
`cycle_pos > CYCLE_LENGTH * DAY_RATIO` (the int/float comparison of the
source, taken over ℚ). -/
def tickNight (t : ℤ) : Bool :=
  decide (((t % CYCLE_LENGTH : ℤ) : ℚ) > (CYCLE_LENGTH : ℚ) * DAY_FRAC)

/-- The tick-start state: current field and population, the freshly
rebuilt spatial hash, and an empty dead list. -/
def initTick (e : Env) : TickState :=
  { nutrients := e.nutrients, agents := e.agents,
    occupied := buildOccupied e.agents, dead := [] }

/-- The state after every tick-start agent's turn has run. -/
def runTick (rand : ℕ → AgentRand) (e : Env) : TickState :=
  runLoop (tickNight (e.global_time + 1)) rand (initTick e) e.agents.length

/-- Environment.update_agents: advance the clock, recompute `is_night`,
rebuild the spatial hash, run every tick-start agent's turn, compact the
population (live originals plus all newborns) and recycle the starved
corpses into the field.  The emitted event list is render-only and
omitted. -/
def update_agents (rand : ℕ → AgentRand) (e : Env) : Env :=
  { nutrients := recycleDead (runTick rand e),
    agents := survivorsPart (runTick rand e) e.agents.length ++
      newbornsPart (runTick rand e) e.agents.length,
    global_time := e.global_time + 1,
    is_night := tickNight (e.global_time + 1) }

/-! ## List store helper lemmas -/

theorem getq_some_lt {α} (l : List α) (i : ℕ) {a : α} (h : l.get? i = some a) :
    i < l.length := by
  induction l generalizing i with
  | nil => simp [List.get?] at h
  | cons x xs ih =>
      cases i with
      | zero => simp
      | succ n => exact Nat.succ_lt_succ (ih n (by simpa using h))

theorem getq_set_self {α} (l : List α) (i : ℕ) (v : α) (h : i < l.length) :
    (l.set i v).get? i = some v := by
  induction l generalizing i with
  | nil => simp at h
  | cons x xs ih =>
      cases i with
      | zero => rfl
      | succ n => simpa using ih n (Nat.lt_of_succ_lt_succ (by simpa using h))

theorem getq_set_ne {α} (l : List α) (i j : ℕ) (v : α) (hne : i ≠ j) :
    (l.set i v).get? j = l.get? j := by
  induction l generalizing i j with
  | nil => rfl
  | cons x xs ih =>
      cases i with
      | zero =>
          cases j with
          | zero => exact absurd rfl hne
          | succ m => rfl
      | succ n =>
          cases j with
          | zero => rfl
          | succ m => simpa using ih n m (fun h => hne (by rw [h]))

theorem mem_of_getq {α} (l : List α) (i : ℕ) {a : α} (h : l.get? i = some a) : a ∈ l := by
  induction l generalizing i with
  | nil => simp [List.get?] at h
  | cons x xs ih =>
      cases i with
      | zero => simp at h; simp [h]
      | succ n => exact List.mem_cons_of_mem _ (ih n (by simpa using h))

theorem mem_of_mem_set {α} (l : List α) (i : ℕ) (v a : α) (h : a ∈ l.set i v) :
    a ∈ l ∨ a = v := by
  induction l generalizing i with
  | nil => exact Or.inl h
  | cons x xs ih =>
      cases i with
      | zero =>
          rcases List.mem_cons.mp h with h | h
          · exact Or.inr h
          · exact Or.inl (List.mem_cons_of_mem _ h)
      | succ n =>
          rcases List.mem_cons.mp h with h | h
          · exact Or.inl (by simp [h])
          · rcases ih n h with h | h
            · exact Or.inl (List.mem_cons_of_mem _ h)
            · exact Or.inr h

theorem getq_append_left {α} (l l2 : List α) (i : ℕ) (h : i < l.length) :
    (l ++ l2).get? i = l.get? i := by
  induction l generalizing i with
  | nil => simp at h
  | cons x xs ih =>
      cases i with
      | zero => rfl
      | succ n => simpa using ih n (Nat.lt_of_succ_lt_succ (by simpa using h))

theorem getq_concat_self {α} (l : List α) (a : α) :
    (l ++ [a]).get? l.length = some a := by
  induction l with
  | nil => rfl
  | cons x xs ih => simp only [List.cons_append, List.length_cons, List.get?]; exact ih

/-! ## C4: mutation respects gene bounds -/

theorem clampQ_bounds (mn mx v : ℚ) (h : mn ≤ mx) :
    mn ≤ clampQ mn mx v ∧ clampQ mn mx v ≤ mx := by
  constructor
  · exact le_max_left _ _
  · exact max_le h (min_le_left _ _)

theorem mutateVal_bounds (roll u mn mx val : ℚ) (h : mn ≤ mx)
    (h1 : mn ≤ val) (h2 : val ≤ mx) :
    mn ≤ mutateVal roll u mn mx val ∧ mutateVal roll u mn mx val ≤ mx := by
  unfold mutateVal
  split
  · exact clampQ_bounds mn mx _ h
  · exact ⟨h1, h2⟩

theorem mutateValInt_bounds (roll u mn mx val : ℚ) (h : mn ≤ mx)
    (h1 : mn ≤ val) (h2 : val ≤ mx) :
    mn ≤ mutateValInt roll u mn mx val ∧ mutateValInt roll u mn mx val ≤ mx := by
  unfold mutateValInt
  split
  · exact clampQ_bounds mn mx _ h
  · exact ⟨h1, h2⟩

theorem den_one_max (a b : ℚ) (ha : a.den = 1) (hb : b.den = 1) : (max a b).den = 1 := by
  rcases le_total a b with h | h
  · rw [max_eq_right h]; exact hb
  · rw [max_eq_left h]; exact ha

theorem den_one_min (a b : ℚ) (ha : a.den = 1) (hb : b.den = 1) : (min a b).den = 1 := by
  rcases le_total a b with h | h
  · rw [min_eq_left h]; exact ha
  · rw [min_eq_right h]; exact hb

theorem mutateValInt_den (roll u val : ℚ) (hval : val.den = 1) :
    (mutateValInt roll u GENE_BOUNDS_sense_range.1 GENE_BOUNDS_sense_range.2 val).den = 1 := by
  unfold mutateValInt clampQ
  split
  · exact den_one_max _ _ rfl (den_one_min _ _ rfl (Rat.den_intCast _))
  · exact hval

/-- C4 (confirmed).  Mutation respects gene bounds: starting from a
genome whose six traits lie within GENE_BOUNDS (with an integral
sense_range, as enforced at creation), every genome `mutate_genes`
returns has all six trait values within those bounds, the sense_range
trait is again an integer (it is rounded to the nearest integer before
clamping), and every trait whose mutation roll did not fire is copied
unchanged. -/
theorem C4_mutation_respects_gene_bounds (r : MutRand) (g : Genes)
    (hb : genesInBounds g) (hint : g.sense_range.den = 1) :
    genesInBounds (mutate_genes r g) ∧ (mutate_genes r g).sense_range.den = 1 ∧
    (¬ r.roll_metabolism < MUTATION_RATE →
      (mutate_genes r g).metabolism = g.metabolism) ∧
    (¬ r.roll_repro_threshold < MUTATION_RATE →
      (mutate_genes r g).repro_threshold = g.repro_threshold) ∧
    (¬ r.roll_sense_range < MUTATION_RATE →
      (mutate_genes r g).sense_range = g.sense_range) ∧
    (¬ r.roll_size < MUTATION_RATE →
      (mutate_genes r g).size = g.size) ∧
    (¬ r.roll_photosynthesis_efficiency < MUTATION_RATE →
      (mutate_genes r g).photosynthesis_efficiency = g.photosynthesis_efficiency) ∧
    (¬ r.roll_adhesion < MUTATION_RATE →
      (mutate_genes r g).adhesion = g.adhesion) := by
  obtain ⟨b1, b2, b3, b4, b5, b6, b7, b8, b9, b10, b11, b12⟩ := hb
  refine ⟨?_, ?_, ?_, ?_, ?_, ?_, ?_, ?_⟩
  · exact ⟨(mutateVal_bounds _ _ _ _ _ (by norm_num [GENE_BOUNDS_metabolism]) b1 b2).1,
      (mutateVal_bounds _ _ _ _ _ (by norm_num [GENE_BOUNDS_metabolism]) b1 b2).2,
      (mutateVal_bounds _ _ _ _ _ (by norm_num [GENE_BOUNDS_repro_threshold]) b3 b4).1,
      (mutateVal_bounds _ _ _ _ _ (by norm_num [GENE_BOUNDS_repro_threshold]) b3 b4).2,
      (mutateValInt_bounds _ _ _ _ _ (by norm_num [GENE_BOUNDS_sense_range]) b5 b6).1,
      (mutateValInt_bounds _ _ _ _ _ (by norm_num [GENE_BOUNDS_sense_range]) b5 b6).2,
      (mutateVal_bounds _ _ _ _ _ (by norm_num [GENE_BOUNDS_size]) b7 b8).1,
      (mutateVal_bounds _ _ _ _ _ (by norm_num [GENE_BOUNDS_size]) b7 b8).2,
      (mutateVal_bounds _ _ _ _ _
        (by norm_num [GENE_BOUNDS_photosynthesis_efficiency]) b9 b10).1,
      (mutateVal_bounds _ _ _ _ _
        (by norm_num [GENE_BOUNDS_photosynthesis_efficiency]) b9 b10).2,
      (mutateVal_bounds _ _ _ _ _ (by norm_num [GENE_BOUNDS_adhesion]) b11 b12).1,
      (mutateVal_bounds _ _ _ _ _ (by norm_num [GENE_BOUNDS_adhesion]) b11 b12).2⟩
  · exact mutateValInt_den _ _ _ hint
  all_goals intro h
  all_goals simp [mutate_genes, mutateVal, mutateValInt, h]

/-- C4 witness: a concrete in-bounds genome and mutation draws, with the
theorem's bounds conclusion evaluated there. -/
theorem C4_mutation_respects_gene_bounds_witness :
    genesInBounds (mutate_genes ⟨0, 1/100, 1, 0, 0, -1/100, 1, 0, 1, 0, 0, 1/100⟩
      ⟨1/2, 20, 3, 2, 1/2, 1/2⟩) :=
  (C4_mutation_respects_gene_bounds ⟨0, 1/100, 1, 0, 0, -1/100, 1, 0, 1, 0, 0, 1/100⟩
    ⟨1/2, 20, 3, 2, 1/2, 1/2⟩ (by norm_num [genesInBounds,
      GENE_BOUNDS_metabolism, GENE_BOUNDS_repro_threshold, GENE_BOUNDS_sense_range,
      GENE_BOUNDS_size, GENE_BOUNDS_photosynthesis_efficiency, GENE_BOUNDS_adhesion])
    (by norm_num)).1

/-! ## Concrete scenario builders -/

/-- A genome literal (field order: metabolism, repro_threshold,
sense_range, size, photosynthesis_efficiency, adhesion). -/
def mkGenes (metab thr sr sz ph adh : ℚ) : Genes :=
  { metabolism := metab, repro_threshold := thr, sense_range := sr, size := sz,
    photosynthesis_efficiency := ph, adhesion := adh }

/-- A freshly constructed agent (Agent.__init__ defaults: age 0, alive,
offspring_count 0), with position, energy, predator flag and genes given. -/
def mkAgent (x y : ℤ) (e : ℚ) (pred : Bool) (g : Genes) : Agent :=
  { x := x, y := y, energy := e, age := 0, generation := 1, is_alive := true,
    is_predator := pred, offspring_count := 0, genes := g }

/-- A placeholder agent used as the default of `List.getD` lookups. -/
def dA : Agent := mkAgent 0 0 0 false (mkGenes 1 10 1 1 0 0)

/-! ## C9 / C10: colony energy sharing -/

/-- sense_and_move never proposes a move for an attached agent: whatever
the day/night phase and the drawn randomness, the returned target is the
agent's current cell (the metabolic cost is still deducted). -/
theorem sense_and_move_attached (g : ℤ → ℤ → ℚ) (w h : ℤ) (night : Bool) (r : MoveRand)
    (a : Agent) : (sense_and_move g w h night true r a).2 = (a.x, a.y) := by
  unfold sense_and_move
  split
  · split
    · rfl
    · simp [moveBody]
  · split
    · split
      · rfl
      · simp [moveBody]
    · simp [moveBody]

/-- C9 (confirmed).  Colony sharing scenario: two agents at adjacent
cells `(0,0)` and `(0,1)` with adhesion genes 0.6 and 0.9 and energies
30.0 and 10.0.  One `handle_colony` interaction transfers exactly
`COLONY_SHARING_RATE * 0.5 * |30 - 10|` (= 5) from the higher-energy
agent to the lower-energy one, leaving the total unchanged — in both
orientations (higher-energy caller, lower-energy caller). -/
theorem C9_colony_sharing_scenario :
    ((handle_colony (mkAgent 0 0 30 false (mkGenes 1 20 1 1 0 (3/5)))
        [mkAgent 0 1 10 false (mkGenes 1 20 1 1 0 (9/10))]).1.energy =
      30 - COLONY_SHARING_RATE * (1/2) * |(30 : ℚ) - 10|) ∧
    ((handle_colony (mkAgent 0 0 30 false (mkGenes 1 20 1 1 0 (3/5)))
        [mkAgent 0 1 10 false (mkGenes 1 20 1 1 0 (9/10))]).2.1.map Agent.energy =
      [10 + COLONY_SHARING_RATE * (1/2) * |(30 : ℚ) - 10|]) ∧
    ((handle_colony (mkAgent 0 0 30 false (mkGenes 1 20 1 1 0 (3/5)))
        [mkAgent 0 1 10 false (mkGenes 1 20 1 1 0 (9/10))]).1.energy +
      ((handle_colony (mkAgent 0 0 30 false (mkGenes 1 20 1 1 0 (3/5)))
        [mkAgent 0 1 10 false (mkGenes 1 20 1 1 0 (9/10))]).2.1.map Agent.energy).sum =
      30 + 10) ∧
    ((handle_colony (mkAgent 0 0 30 false (mkGenes 1 20 1 1 0 (3/5)))
        [mkAgent 0 1 10 false (mkGenes 1 20 1 1 0 (9/10))]).2.2 = true) ∧
    ((handle_colony (mkAgent 0 1 10 false (mkGenes 1 20 1 1 0 (9/10)))
        [mkAgent 0 0 30 false (mkGenes 1 20 1 1 0 (3/5))]).1.energy =
      10 + COLONY_SHARING_RATE * (1/2) * |(30 : ℚ) - 10|) ∧
    ((handle_colony (mkAgent 0 1 10 false (mkGenes 1 20 1 1 0 (9/10)))
        [mkAgent 0 0 30 false (mkGenes 1 20 1 1 0 (3/5))]).2.1.map Agent.energy =
      [30 - COLONY_SHARING_RATE * (1/2) * |(30 : ℚ) - 10|]) := by
  with_unfolding_all decide

/-- C10 (confirmed).  Implicit colony dead-band: two mutually sticky
agents (both adhesion ≥ 0.5) whose energies differ by at most 1.0 in
absolute value exchange no energy at all — `handle_colony` returns both
records exactly unchanged — yet the caller is still reported attached,
and an attached agent's sense_and_move target is always its current
cell, so its movement is suppressed that tick. -/
theorem C10_colony_dead_band (a b : Agent)
    (ha : a.genes.adhesion ≥ 1/2) (hb : b.genes.adhesion ≥ 1/2)
    (hd : |a.energy - b.energy| ≤ 1) :
    handle_colony a [b] = (a, [b], true) ∧
    ∀ (g : ℤ → ℤ → ℚ) (night : Bool) (r : MoveRand),
      (sense_and_move g GRID_WIDTH GRID_HEIGHT night true r a).2 = (a.x, a.y) := by
  constructor
  · unfold handle_colony
    rw [if_neg (not_lt.mpr ha)]
    simp only [List.foldl]
    rw [if_pos hb, if_neg (not_lt.mpr hd)]
    rfl
  · intro g night r
    exact sense_and_move_attached g GRID_WIDTH GRID_HEIGHT night r a

/-- C10 witness: a concrete mutually sticky pair with energy gap 0.5. -/
theorem C10_colony_dead_band_witness :
    handle_colony (mkAgent 0 0 30 false (mkGenes 1 20 1 1 0 (3/5)))
        [mkAgent 0 1 (59/2) false (mkGenes 1 20 1 1 0 (9/10))] =
      (mkAgent 0 0 30 false (mkGenes 1 20 1 1 0 (3/5)),
       [mkAgent 0 1 (59/2) false (mkGenes 1 20 1 1 0 (9/10))], true) ∧
    (sense_and_move (fun _ _ => 0) GRID_WIDTH GRID_HEIGHT false true ⟨1, 1, 1, 1⟩
        (mkAgent 0 0 30 false (mkGenes 1 20 1 1 0 (3/5)))).2 = (0, 0) :=
  ⟨(C10_colony_dead_band _ _ (by with_unfolding_all decide)
      (by with_unfolding_all decide) (by with_unfolding_all decide)).1,
   (C10_colony_dead_band (mkAgent 0 0 30 false (mkGenes 1 20 1 1 0 (3/5)))
      (mkAgent 0 1 (59/2) false (mkGenes 1 20 1 1 0 (9/10)))
      (by with_unfolding_all decide) (by with_unfolding_all decide)
      (by with_unfolding_all decide)).2 (fun _ _ => 0) false ⟨1, 1, 1, 1⟩⟩

/-! ## Nutrient field bounds and the single-peak diffusion scenario -/

/-- Every cell of an updated nutrient field is clamped into
`[0, MAX_NUTRIENT]`, whatever the prior state, spawn draws and
constants. -/
theorem updateNutrientsWith_bounds (rate k decay : ℚ) (u g : ℤ → ℤ → ℚ) (x y : ℤ) :
    0 ≤ updateNutrientsWith rate k decay u g x y ∧
      updateNutrientsWith rate k decay u g x y ≤ MAX_NUTRIENT := by
  unfold updateNutrientsWith
  exact clampQ_bounds 0 MAX_NUTRIENT _ (by norm_num [MAX_NUTRIENT])

/-- The C8 scenario field: zero everywhere except value 10.0 at `(5,5)`. -/
def singlePeak : ℤ → ℤ → ℚ := fun x y => if x = 5 ∧ y = 5 then 10 else 0

/-- C8 counterexample: with spawn rate zero, diffusion constant
DIFFUSION_FACTOR = 0.1 and decay NUTRIENT_DECAY = 0.995, one nutrient
update starting from `singlePeak` leaves the neighbor cell `(6,5)` with
a gain of exactly 0.995 — not the claimed `10.0 * 0.1 = 1.0`, because
the decay step multiplies the already-diffused value. -/
theorem C8_counterexample :
    updateNutrientsWith 0 DIFFUSION_FACTOR NUTRIENT_DECAY (fun _ _ => 1/2) singlePeak 6 5 -
        singlePeak 6 5 = 199/200 ∧
    ¬ (updateNutrientsWith 0 DIFFUSION_FACTOR NUTRIENT_DECAY (fun _ _ => 1/2) singlePeak 6 5 -
        singlePeak 6 5 = 10 * DIFFUSION_FACTOR) := by
  with_unfolding_all decide

/-- C8 (corrected).  Single-peak diffusion scenario: from `singlePeak`
(10.0 at `(5,5)`, zero elsewhere), with zero spawn rate, diffusion
constant 0.1 and decay 0.995, one nutrient update gives each of the four
wrapped neighbors of `(5,5)` exactly `10.0 * 0.1 * 0.995` (the diffused
inflow, then decayed), and the center exactly
`10.0 * (1 - 0.4) * 0.995` — for every nonnegative spawn-draw oracle,
since a zero rate never fires the regeneration mask. -/
theorem C8_single_peak_diffusion (u : ℤ → ℤ → ℚ) (hu : ∀ x y, 0 ≤ u x y) :
    updateNutrientsWith 0 DIFFUSION_FACTOR NUTRIENT_DECAY u singlePeak 4 5 =
      10 * DIFFUSION_FACTOR * NUTRIENT_DECAY ∧
    updateNutrientsWith 0 DIFFUSION_FACTOR NUTRIENT_DECAY u singlePeak 6 5 =
      10 * DIFFUSION_FACTOR * NUTRIENT_DECAY ∧
    updateNutrientsWith 0 DIFFUSION_FACTOR NUTRIENT_DECAY u singlePeak 5 4 =
      10 * DIFFUSION_FACTOR * NUTRIENT_DECAY ∧
    updateNutrientsWith 0 DIFFUSION_FACTOR NUTRIENT_DECAY u singlePeak 5 6 =
      10 * DIFFUSION_FACTOR * NUTRIENT_DECAY ∧
    updateNutrientsWith 0 DIFFUSION_FACTOR NUTRIENT_DECAY u singlePeak 5 5 =
      10 * (1 - 4 * DIFFUSION_FACTOR) * NUTRIENT_DECAY := by
  have hmask : ∀ x y : ℤ, ¬ (u x y < 0) := fun x y => not_lt.mpr (hu x y)
  unfold updateNutrientsWith
  simp only [hmask, if_false]
  norm_num [singlePeak, wrapX, wrapY, clampQ, GRID_WIDTH, GRID_HEIGHT,
    DIFFUSION_FACTOR, NUTRIENT_DECAY, MAX_NUTRIENT, min_def, max_def]

/-- C8 witness: the scenario evaluated at a concrete oracle of positive
spawn draws. -/
theorem C8_single_peak_diffusion_witness :
    updateNutrientsWith 0 DIFFUSION_FACTOR NUTRIENT_DECAY (fun _ _ => 1/2) singlePeak 5 5 =
      10 * (1 - 4 * DIFFUSION_FACTOR) * NUTRIENT_DECAY :=
  (C8_single_peak_diffusion (fun _ _ => 1/2) (fun _ _ => by norm_num)).2.2.2.2

/-! ## Movement lemmas: the scan window, argmax and target bounds -/

theorem mem_windowCells {xmin xmax ymin ymax : ℤ} {c : ℤ × ℤ}
    (h : c ∈ windowCells xmin xmax ymin ymax) :
    xmin ≤ c.1 ∧ c.1 < xmax ∧ ymin ≤ c.2 ∧ c.2 < ymax := by
  unfold windowCells at h
  rcases List.mem_flatMap.mp h with ⟨i, hi, hmem⟩
  rcases List.mem_map.mp hmem with ⟨j, hj, hc⟩
  rw [List.mem_range] at hi hj
  have h1 : c.1 = xmin + (i : ℤ) := by rw [← hc]
  have h2 : c.2 = ymin + (j : ℤ) := by rw [← hc]
  refine ⟨by omega, by omega, by omega, by omega⟩

theorem bestCell_mem (g : ℤ → ℤ → ℚ) (l : List (ℤ × ℤ)) :
    ∀ (acc : Option ((ℤ × ℤ) × ℚ)) (b : ℤ × ℤ) (v : ℚ),
      bestCell g l acc = some (b, v) → acc = some (b, v) ∨ b ∈ l := by
  induction l with
  | nil => intro acc b v h; exact Or.inl h
  | cons c rest ih =>
      intro acc b v h
      cases acc with
      | none =>
          simp only [bestCell] at h
          rcases ih _ b v h with h1 | h1
          · have hcb : c = b := congrArg Prod.fst (Option.some.inj h1)
            exact Or.inr (hcb ▸ List.mem_cons_self c rest)
          · exact Or.inr (List.mem_cons_of_mem _ h1)
      | some bv =>
          rcases bv with ⟨b0, v0⟩
          simp only [bestCell] at h
          split at h
          · rcases ih _ b v h with h1 | h1
            · have hcb : c = b := congrArg Prod.fst (Option.some.inj h1)
              exact Or.inr (hcb ▸ List.mem_cons_self c rest)
            · exact Or.inr (List.mem_cons_of_mem _ h1)
          · rcases ih _ b v h with h1 | h1
            · exact Or.inl h1
            · exact Or.inr (List.mem_cons_of_mem _ h1)

theorem sign_step_bounds {x b w : ℤ} (hx0 : 0 ≤ x) (hxw : x < w) (hb0 : 0 ≤ b) (hbw : b < w) :
    0 ≤ x + Int.sign (b - x) ∧ x + Int.sign (b - x) < w := by
  rcases lt_trichotomy b x with hlt | heq | hgt
  · rw [Int.sign_eq_neg_one_of_neg (by omega)]; omega
  · rw [heq, sub_self, Int.sign_zero]; omega
  · rw [Int.sign_eq_one_of_pos (by omega)]; omega

/-- sense_and_move only alters the agent's energy: the returned record
is the input agent with its energy field replaced. -/
theorem sense_and_move_self (g : ℤ → ℤ → ℚ) (w h : ℤ) (night att : Bool) (r : MoveRand)
    (a : Agent) :
    (sense_and_move g w h night att r a).1 =
      { a with energy := (sense_and_move g w h night att r a).1.energy } := by
  unfold sense_and_move moveBody randWalk
  repeat' split
  all_goals rfl

theorem randWalk_target_bounds (w h : ℤ) (r : MoveRand) (a : Agent)
    (hx0 : 0 ≤ a.x) (hxw : a.x < w) (hy0 : 0 ≤ a.y) (hyh : a.y < h) :
    0 ≤ (randWalk w h r a).2.1 ∧ (randWalk w h r a).2.1 < w ∧
      0 ≤ (randWalk w h r a).2.2 ∧ (randWalk w h r a).2.2 < h := by
  unfold randWalk
  split
  · split
    · next hcond => exact ⟨hcond.1, hcond.2.1, hcond.2.2.1, hcond.2.2.2⟩
    · exact ⟨hx0, hxw, hy0, hyh⟩
  · exact ⟨hx0, hxw, hy0, hyh⟩

theorem moveBody_target_bounds (g : ℤ → ℤ → ℚ) (w h : ℤ) (att : Bool) (r : MoveRand)
    (a : Agent) (hx0 : 0 ≤ a.x) (hxw : a.x < w) (hy0 : 0 ≤ a.y) (hyh : a.y < h) :
    0 ≤ (moveBody g w h att r a).2.1 ∧ (moveBody g w h att r a).2.1 < w ∧
      0 ≤ (moveBody g w h att r a).2.2 ∧ (moveBody g w h att r a).2.2 < h := by
  unfold moveBody
  split
  · exact ⟨hx0, hxw, hy0, hyh⟩
  · split
    · next bv heq =>
        split
        · have hmem : bv.1 ∈ windowCells (max 0 (a.x - ⌊a.genes.sense_range⌋))
              (min w (a.x + ⌊a.genes.sense_range⌋ + 1))
              (max 0 (a.y - ⌊a.genes.sense_range⌋))
              (min h (a.y + ⌊a.genes.sense_range⌋ + 1)) := by
            rcases bestCell_mem g _ none bv.1 bv.2 (by simpa using heq) with h1 | h1
            · exact absurd h1 (by simp)
            · exact h1
          have hb := mem_windowCells hmem
          have hbx : 0 ≤ bv.1.1 ∧ bv.1.1 < w := by
            constructor
            · exact le_trans (le_max_left 0 _) hb.1
            · exact lt_of_lt_of_le hb.2.1 (min_le_left w _)
          have hby : 0 ≤ bv.1.2 ∧ bv.1.2 < h := by
            constructor
            · exact le_trans (le_max_left 0 _) hb.2.2.1
            · exact lt_of_lt_of_le hb.2.2.2 (min_le_left h _)
          have hsx := sign_step_bounds hx0 hxw hbx.1 hbx.2
          have hsy := sign_step_bounds hy0 hyh hby.1 hby.2
          exact ⟨hsx.1, hsx.2, hsy.1, hsy.2⟩
        · exact randWalk_target_bounds w h r a hx0 hxw hy0 hyh
    · exact randWalk_target_bounds w h r a hx0 hxw hy0 hyh

/-- For an agent inside the `[0, w) × [0, h)` grid, sense_and_move
never returns an out-of-bounds target cell, whatever the phase of day,
attachment, and randomness. -/
theorem sense_and_move_target_bounds (g : ℤ → ℤ → ℚ) (w h : ℤ) (night att : Bool)
    (r : MoveRand) (a : Agent)
    (hx0 : 0 ≤ a.x) (hxw : a.x < w) (hy0 : 0 ≤ a.y) (hyh : a.y < h) :
    0 ≤ (sense_and_move g w h night att r a).2.1 ∧
      (sense_and_move g w h night att r a).2.1 < w ∧
      0 ≤ (sense_and_move g w h night att r a).2.2 ∧
      (sense_and_move g w h night att r a).2.2 < h := by
  unfold sense_and_move
  split
  · split
    · exact ⟨hx0, hxw, hy0, hyh⟩
    · exact moveBody_target_bounds g w h att r _ hx0 hxw hy0 hyh
  · split
    · split
      · exact ⟨hx0, hxw, hy0, hyh⟩
      · exact moveBody_target_bounds g w h att r _ hx0 hxw hy0 hyh
    · exact moveBody_target_bounds g w h att r _ hx0 hxw hy0 hyh

/-! ## Loop invariants: coordinates stay inside the grid -/

/-- The agent's coordinates lie inside `[0, GRID_WIDTH) × [0, GRID_HEIGHT)`. -/
def agentInGrid (a : Agent) : Prop :=
  0 ≤ a.x ∧ a.x < GRID_WIDTH ∧ 0 ≤ a.y ∧ a.y < GRID_HEIGHT

instance (a : Agent) : Decidable (agentInGrid a) := by
  unfold agentInGrid; infer_instance

/-- Every agent of the store is inside the grid. -/
def allInGrid (l : List Agent) : Prop := ∀ a ∈ l, agentInGrid a

theorem foldl_inv {α β} (P : β → Prop) (f : β → α → β)
    (hstep : ∀ b a, P b → P (f b a)) :
    ∀ (l : List α) (b : β), P b → P (List.foldl f b l) := by
  intro l
  induction l with
  | nil => intro b hb; exact hb
  | cons a rest ih => intro b hb; exact ih (f b a) (hstep b a hb)

theorem allInGrid_set {l : List Agent} {i : ℕ} {v : Agent}
    (hall : allInGrid l) (hv : agentInGrid v) : allInGrid (l.set i v) := by
  intro b hb
  rcases mem_of_mem_set _ _ _ _ hb with h | h
  · exact hall b h
  · rw [h]; exact hv

theorem phasePhoto_inGrid (night : Bool) (st : TickState) (i : ℕ)
    (hall : allInGrid st.agents) : allInGrid (phasePhoto night st i).agents := by
  unfold phasePhoto
  split
  · exact hall
  · next a heq => exact allInGrid_set hall (hall a (mem_of_getq _ _ heq))

theorem handleColonyIdx_inGrid (st : TickState) (i : ℕ) (nbrs : List ℕ)
    (hall : allInGrid st.agents) : allInGrid (handleColonyIdx st i nbrs).1.agents := by
  unfold handleColonyIdx
  split
  · exact hall
  · split
    · exact hall
    · refine foldl_inv (fun acc => allInGrid acc.1.agents) _ ?_ nbrs (st, false) hall
      intro acc j hacc
      dsimp only
      split
      · next s o hs ho =>
          split
          · split
            · exact allInGrid_set (allInGrid_set hacc (hacc s (mem_of_getq _ _ hs)))
                (hacc o (mem_of_getq _ _ ho))
            · exact hacc
          · exact hacc
      · exact hacc

theorem phaseColony_inGrid (st : TickState) (i : ℕ)
    (hall : allInGrid st.agents) : allInGrid (phaseColony st i).1.agents := by
  unfold phaseColony
  split
  · exact hall
  · split
    · exact handleColonyIdx_inGrid _ _ _ hall
    · exact hall

theorem resolveMove_inGrid (st : TickState) (i : ℕ) (a2 : Agent) (tx ty : ℤ)
    (hall : allInGrid st.agents) (ha2 : agentInGrid a2)
    (htx0 : 0 ≤ tx) (htxw : tx < GRID_WIDTH) (hty0 : 0 ≤ ty) (htyh : ty < GRID_HEIGHT) :
    allInGrid (resolveMove st i a2 tx ty).agents := by
  unfold resolveMove
  split
  · exact allInGrid_set hall ⟨htx0, htxw, hty0, htyh⟩
  · split
    · exact hall
    · next o ho =>
        split
        · have hvict : agentInGrid { o with is_alive := false } :=
            hall o (mem_of_getq _ _ ho)
          have ha3 : agentInGrid { a2 with energy :=
              a2.energy + o.energy * PREDATOR_EAT_EFFICIENCY + DEAD_BODY_NUTRIENT } := ha2
          exact allInGrid_set (allInGrid_set (allInGrid_set hall hvict) ha3)
            ⟨htx0, htxw, hty0, htyh⟩
        · exact hall

theorem phaseMove_inGrid (night att : Bool) (r : MoveRand) (st : TickState) (i : ℕ)
    (hall : allInGrid st.agents) : allInGrid (phaseMove night att r st i).agents := by
  unfold phaseMove
  split
  · exact hall
  · next a heq =>
      have ha := hall a (mem_of_getq _ _ heq)
      have hself := sense_and_move_self st.nutrients GRID_WIDTH GRID_HEIGHT night att r a
      have hres : agentInGrid (sense_and_move st.nutrients GRID_WIDTH GRID_HEIGHT
          night att r a).1 := by
        rw [hself]; exact ha
      have htb := sense_and_move_target_bounds st.nutrients GRID_WIDTH GRID_HEIGHT
        night att r a ha.1 ha.2.1 ha.2.2.1 ha.2.2.2
      exact resolveMove_inGrid _ i _ _ _ (allInGrid_set hall hres) hres
        htb.1 htb.2.1 htb.2.2.1 htb.2.2.2

theorem phaseEat_inGrid (st : TickState) (i : ℕ)
    (hall : allInGrid st.agents) : allInGrid (phaseEat st i).agents := by
  unfold phaseEat
  split
  · exact hall
  · next a heq =>
      split
      · exact hall
      · exact allInGrid_set hall (hall a (mem_of_getq _ _ heq))

theorem spawnChild_inGrid (mr : MutRand) (st : TickState) (i : ℕ) (a : Agent) (c : ℤ × ℤ)
    (hall : allInGrid st.agents)
    (hc : 0 ≤ c.1 ∧ c.1 < GRID_WIDTH ∧ 0 ≤ c.2 ∧ c.2 < GRID_HEIGHT)
    (ha : agentInGrid a) : allInGrid (spawnChild mr st i a c).agents := by
  unfold spawnChild
  intro b hb
  rcases List.mem_append.mp hb with h | h
  · have hp : agentInGrid
        { a with energy := a.energy / 2, offspring_count := a.offspring_count + 1 } := ha
    exact allInGrid_set hall hp b h
  · rcases List.mem_singleton.mp h with h1
    rw [h1]; exact hc

theorem reproScan_inGrid (mr : MutRand) (st : TickState) (i : ℕ) (cs : List (ℤ × ℤ))
    (hall : allInGrid st.agents) : allInGrid (reproScan mr st i cs).agents := by
  induction cs generalizing st with
  | nil => exact hall
  | cons c rest ih =>
      unfold reproScan
      split
      · next hcond =>
          split
          · split
            · exact hall
            · next a heq =>
                exact spawnChild_inGrid mr st i a c hall
                  ⟨hcond.1, hcond.2.1, hcond.2.2.1, hcond.2.2.2⟩
                  (hall a (mem_of_getq _ _ heq))
          · exact ih st hall
      · exact ih st hall

theorem phaseRepro_inGrid (mr : MutRand) (order : List (Fin 4)) (st : TickState) (i : ℕ)
    (hall : allInGrid st.agents) : allInGrid (phaseRepro mr order st i).agents := by
  unfold phaseRepro
  split
  · exact hall
  · split
    · exact reproScan_inGrid _ _ _ _ hall
    · exact hall

theorem check_evolution_coords (a : Agent) :
    (check_evolution a).x = a.x ∧ (check_evolution a).y = a.y := by
  unfold check_evolution
  split
  · exact ⟨rfl, rfl⟩
  · exact ⟨rfl, rfl⟩

theorem phaseEnd_inGrid (st : TickState) (i : ℕ)
    (hall : allInGrid st.agents) : allInGrid (phaseEnd st i).agents := by
  unfold phaseEnd
  split
  · exact hall
  · next a heq =>
      have ha := hall a (mem_of_getq _ _ heq)
      have hc := check_evolution_coords a
      have hg2 : agentInGrid { check_evolution a with age := a.age + 1 } := by
        unfold agentInGrid
        rw [show ({ check_evolution a with age := a.age + 1 } : Agent).x =
            (check_evolution a).x from rfl,
          show ({ check_evolution a with age := a.age + 1 } : Agent).y =
            (check_evolution a).y from rfl, hc.1, hc.2]
        exact ha
      have hg3 : agentInGrid
          { { check_evolution a with age := a.age + 1 } with is_alive := false } := hg2
      dsimp only
      split
      · exact allInGrid_set hall hg3
      · exact allInGrid_set hall hg2

theorem stepAgent_inGrid (night : Bool) (r : AgentRand) (st : TickState) (i : ℕ)
    (hall : allInGrid st.agents) : allInGrid (stepAgent night r st i).agents := by
  unfold stepAgent
  exact phaseEnd_inGrid _ _ (phaseRepro_inGrid _ _ _ _ (phaseEat_inGrid _ _
    (phaseMove_inGrid _ _ _ _ _ (phaseColony_inGrid _ _ (phasePhoto_inGrid _ _ _ hall)))))

theorem runLoop_inGrid (night : Bool) (rand : ℕ → AgentRand) (st : TickState) (n0 : ℕ)
    (hall : allInGrid st.agents) : allInGrid (runLoop night rand st n0).agents := by
  unfold runLoop
  exact foldl_inv (fun s => allInGrid s.agents) _
    (fun s i hs => stepAgent_inGrid night (rand i) s i hs) _ st hall

/-- C2 (confirmed).  Bounded coordinates: from a population whose agents
all sit inside `[0, GRID_WIDTH) × [0, GRID_HEIGHT)`, one tick of
update_agents yields a population — survivors and newborns alike — again
entirely inside the grid; and sense_and_move never returns an
out-of-bounds candidate cell for an in-bounds agent, whatever the
randomness, day phase and attachment. -/
theorem C2_bounded_coordinates (rand : ℕ → AgentRand) (e : Env)
    (hall : ∀ a ∈ e.agents, agentInGrid a) :
    (∀ a ∈ (update_agents rand e).agents, agentInGrid a) ∧
    (∀ (g : ℤ → ℤ → ℚ) (night att : Bool) (r : MoveRand) (a : Agent), agentInGrid a →
      0 ≤ (sense_and_move g GRID_WIDTH GRID_HEIGHT night att r a).2.1 ∧
      (sense_and_move g GRID_WIDTH GRID_HEIGHT night att r a).2.1 < GRID_WIDTH ∧
      0 ≤ (sense_and_move g GRID_WIDTH GRID_HEIGHT night att r a).2.2 ∧
      (sense_and_move g GRID_WIDTH GRID_HEIGHT night att r a).2.2 < GRID_HEIGHT) := by
  constructor
  · intro a ha
    have hrun : allInGrid (runTick rand e).agents :=
      runLoop_inGrid _ rand (initTick e) e.agents.length hall
    have ha2 : a ∈ survivorsPart (runTick rand e) e.agents.length ++
        newbornsPart (runTick rand e) e.agents.length := ha
    rcases List.mem_append.mp ha2 with h | h
    · exact hrun a (List.take_subset _ _ (List.mem_of_mem_filter h))
    · exact hrun a (List.drop_subset _ _ h)
  · intro g night att r a hg
    exact sense_and_move_target_bounds g GRID_WIDTH GRID_HEIGHT night att r a
      hg.1 hg.2.1 hg.2.2.1 hg.2.2.2

/-- C2 witness: a concrete one-agent in-bounds population, its surviving
agent evaluated in bounds after one tick. -/
theorem C2_bounded_coordinates_witness :
    agentInGrid (((update_agents (fun _ => ⟨⟨1, 1, 1, 1⟩, [0, 1, 2, 3], ⟨1, 0, 1, 0, 1, 0, 1, 0, 1, 0, 1, 0⟩⟩)
        { nutrients := fun _ _ => 0,
          agents := [mkAgent 0 0 20 false (mkGenes (1/10) 60 1 1 0 0)],
          global_time := 0, is_night := false }).agents).getD 0 dA) := by
  have h := (C2_bounded_coordinates
    (fun _ => ⟨⟨1, 1, 1, 1⟩, [0, 1, 2, 3], ⟨1, 0, 1, 0, 1, 0, 1, 0, 1, 0, 1, 0⟩⟩)
    { nutrients := fun _ _ => 0,
      agents := [mkAgent 0 0 20 false (mkGenes (1/10) 60 1 1 0 0)],
      global_time := 0, is_night := false }
    (by intro a ha; rw [List.mem_singleton.mp ha]; with_unfolding_all decide)).1
  exact h _ (by with_unfolding_all decide)

/-! ## Phase bookkeeping: dead lists, lengths, nutrient fields -/

theorem phasePhoto_dead (night : Bool) (st : TickState) (i : ℕ) :
    (phasePhoto night st i).dead = st.dead := by
  unfold phasePhoto; split <;> rfl

theorem handleColonyIdx_dead (st : TickState) (i : ℕ) (nbrs : List ℕ) :
    (handleColonyIdx st i nbrs).1.dead = st.dead := by
  unfold handleColonyIdx
  split
  · rfl
  · split
    · rfl
    · refine foldl_inv (fun acc => acc.1.dead = st.dead) _ ?_ nbrs (st, false) rfl
      intro acc j hacc
      dsimp only
      split
      · split
        · split
          · exact hacc
          · exact hacc
        · exact hacc
      · exact hacc

theorem phaseColony_dead (st : TickState) (i : ℕ) :
    (phaseColony st i).1.dead = st.dead := by
  unfold phaseColony
  split
  · rfl
  · split
    · exact handleColonyIdx_dead _ _ _
    · rfl

theorem resolveMove_dead (st : TickState) (i : ℕ) (a2 : Agent) (tx ty : ℤ) :
    (resolveMove st i a2 tx ty).dead = st.dead := by
  unfold resolveMove
  split
  · rfl
  · split
    · rfl
    · split
      · rfl
      · rfl

theorem phaseMove_dead (night att : Bool) (r : MoveRand) (st : TickState) (i : ℕ) :
    (phaseMove night att r st i).dead = st.dead := by
  unfold phaseMove
  split
  · rfl
  · exact resolveMove_dead _ _ _ _ _

theorem phaseEat_dead (st : TickState) (i : ℕ) : (phaseEat st i).dead = st.dead := by
  unfold phaseEat
  split
  · rfl
  · split
    · rfl
    · rfl

theorem spawnChild_dead (mr : MutRand) (st : TickState) (i : ℕ) (a : Agent) (c : ℤ × ℤ) :
    (spawnChild mr st i a c).dead = st.dead := rfl

theorem reproScan_dead (mr : MutRand) (st : TickState) (i : ℕ) (cs : List (ℤ × ℤ)) :
    (reproScan mr st i cs).dead = st.dead := by
  induction cs generalizing st with
  | nil => rfl
  | cons c rest ih =>
      unfold reproScan
      split
      · split
        · split
          · rfl
          · exact spawnChild_dead _ _ _ _ _
        · exact ih st
      · exact ih st

theorem phaseRepro_dead (mr : MutRand) (order : List (Fin 4)) (st : TickState) (i : ℕ) :
    (phaseRepro mr order st i).dead = st.dead := by
  unfold phaseRepro
  split
  · rfl
  · split
    · exact reproScan_dead _ _ _ _
    · rfl

theorem check_evolution_energy (a : Agent) : (check_evolution a).energy = a.energy := by
  unfold check_evolution; split <;> rfl

theorem check_evolution_alive (a : Agent) : (check_evolution a).is_alive = a.is_alive := by
  unfold check_evolution; split <;> rfl

/-- The starvation check is the only producer of dead-list entries: the
closing phase appends the agent's index exactly when its energy at the
death check is ≤ 0 (check_evolution and aging do not change energy). -/
theorem phaseEnd_dead (st : TickState) (i : ℕ) (a : Agent)
    (heq : st.agents.get? i = some a) :
    (phaseEnd st i).dead = st.dead ++ (if a.energy ≤ 0 then [i] else []) := by
  unfold phaseEnd
  split
  · next hnone => rw [heq] at hnone; cases hnone
  · next a' heq' =>
      rw [heq] at heq'
      have hsome : a = a' := Option.some.inj heq'
      rw [hsome]
      have hae : ({ check_evolution a' with age := a'.age + 1 } : Agent).energy = a'.energy :=
        check_evolution_energy a'
      by_cases hle : a'.energy ≤ 0
      · rw [if_pos (hae ▸ hle)]
        dsimp only
        rw [if_pos hle]
      · rw [if_neg (fun hcon => hle (hae ▸ hcon))]
        dsimp only
        rw [if_neg hle, List.append_nil]

theorem phasePhoto_length (night : Bool) (st : TickState) (i : ℕ) :
    (phasePhoto night st i).agents.length = st.agents.length := by
  unfold phasePhoto
  split
  · rfl
  · exact List.length_set _ _ _

theorem handleColonyIdx_length (st : TickState) (i : ℕ) (nbrs : List ℕ) :
    (handleColonyIdx st i nbrs).1.agents.length = st.agents.length := by
  unfold handleColonyIdx
  split
  · rfl
  · split
    · rfl
    · refine foldl_inv (fun acc => acc.1.agents.length = st.agents.length) _ ?_
        nbrs (st, false) rfl
      intro acc j hacc
      dsimp only
      split
      · split
        · split
          · simp only [List.length_set]; exact hacc
          · exact hacc
        · exact hacc
      · exact hacc

theorem phaseColony_length (st : TickState) (i : ℕ) :
    (phaseColony st i).1.agents.length = st.agents.length := by
  unfold phaseColony
  split
  · rfl
  · split
    · exact handleColonyIdx_length _ _ _
    · rfl

theorem resolveMove_length (st : TickState) (i : ℕ) (a2 : Agent) (tx ty : ℤ) :
    (resolveMove st i a2 tx ty).agents.length = st.agents.length := by
  unfold resolveMove
  split
  · exact List.length_set _ _ _
  · split
    · rfl
    · split
      · simp only [List.length_set]
      · rfl

theorem phaseMove_length (night att : Bool) (r : MoveRand) (st : TickState) (i : ℕ) :
    (phaseMove night att r st i).agents.length = st.agents.length := by
  unfold phaseMove
  split
  · rfl
  · rw [resolveMove_length]; exact List.length_set _ _ _

theorem phaseEat_length (st : TickState) (i : ℕ) :
    (phaseEat st i).agents.length = st.agents.length := by
  unfold phaseEat
  split
  · rfl
  · split
    · rfl
    · exact List.length_set _ _ _

theorem spawnChild_length (mr : MutRand) (st : TickState) (i : ℕ) (a : Agent) (c : ℤ × ℤ) :
    (spawnChild mr st i a c).agents.length = st.agents.length + 1 := by
  unfold spawnChild
  simp [List.length_append, List.length_set]

theorem reproScan_length (mr : MutRand) (st : TickState) (i : ℕ) (cs : List (ℤ × ℤ)) :
    (reproScan mr st i cs).agents.length ≤ st.agents.length + 1 := by
  induction cs generalizing st with
  | nil => exact Nat.le_succ _
  | cons c rest ih =>
      unfold reproScan
      split
      · split
        · split
          · exact Nat.le_succ _
          · exact Nat.le_of_eq (spawnChild_length _ _ _ _ _)
        · exact ih st
      · exact ih st

theorem phaseRepro_length (mr : MutRand) (order : List (Fin 4)) (st : TickState) (i : ℕ) :
    (phaseRepro mr order st i).agents.length ≤ st.agents.length + 1 := by
  unfold phaseRepro
  split
  · exact Nat.le_succ _
  · split
    · exact reproScan_length _ _ _ _
    · exact Nat.le_succ _

theorem phaseEnd_length (st : TickState) (i : ℕ) :
    (phaseEnd st i).agents.length = st.agents.length := by
  unfold phaseEnd
  split
  · rfl
  · dsimp only
    split
    · exact List.length_set _ _ _
    · exact List.length_set _ _ _

/-! ## Phase bookkeeping: the nutrient field inside the agent loop -/

theorem phasePhoto_nutrients (night : Bool) (st : TickState) (i : ℕ) :
    (phasePhoto night st i).nutrients = st.nutrients := by
  unfold phasePhoto; split <;> rfl

theorem handleColonyIdx_nutrients (st : TickState) (i : ℕ) (nbrs : List ℕ) :
    (handleColonyIdx st i nbrs).1.nutrients = st.nutrients := by
  unfold handleColonyIdx
  split
  · rfl
  · split
    · rfl
    · refine foldl_inv (fun acc => acc.1.nutrients = st.nutrients) _ ?_ nbrs (st, false) rfl
      intro acc j hacc
      dsimp only
      split
      · split
        · split
          · exact hacc
          · exact hacc
        · exact hacc
      · exact hacc

theorem phaseColony_nutrients (st : TickState) (i : ℕ) :
    (phaseColony st i).1.nutrients = st.nutrients := by
  unfold phaseColony
  split
  · rfl
  · split
    · exact handleColonyIdx_nutrients _ _ _
    · rfl

theorem resolveMove_nutrients (st : TickState) (i : ℕ) (a2 : Agent) (tx ty : ℤ) :
    (resolveMove st i a2 tx ty).nutrients = st.nutrients := by
  unfold resolveMove
  split
  · rfl
  · split
    · rfl
    · split
      · rfl
      · rfl

theorem phaseMove_nutrients (night att : Bool) (r : MoveRand) (st : TickState) (i : ℕ) :
    (phaseMove night att r st i).nutrients = st.nutrients := by
  unfold phaseMove
  split
  · rfl
  · exact resolveMove_nutrients _ _ _ _ _

theorem spawnChild_nutrients (mr : MutRand) (st : TickState) (i : ℕ) (a : Agent)
    (c : ℤ × ℤ) : (spawnChild mr st i a c).nutrients = st.nutrients := rfl

theorem reproScan_nutrients (mr : MutRand) (st : TickState) (i : ℕ) (cs : List (ℤ × ℤ)) :
    (reproScan mr st i cs).nutrients = st.nutrients := by
  induction cs generalizing st with
  | nil => rfl
  | cons c rest ih =>
      unfold reproScan
      split
      · split
        · split
          · rfl
          · rfl
        · exact ih st
      · exact ih st

theorem phaseRepro_nutrients (mr : MutRand) (order : List (Fin 4)) (st : TickState)
    (i : ℕ) : (phaseRepro mr order st i).nutrients = st.nutrients := by
  unfold phaseRepro
  split
  · rfl
  · split
    · exact reproScan_nutrients _ _ _ _
    · rfl

theorem phaseEnd_nutrients (st : TickState) (i : ℕ) :
    (phaseEnd st i).nutrients = st.nutrients := by
  unfold phaseEnd
  split
  · rfl
  · dsimp only
    split
    · rfl
    · rfl

/-- Eating keeps every cell nonnegative: an agent removes
`min(available, 2.0)`, never more than the cell holds. -/
theorem phaseEat_nutrients_nonneg (st : TickState) (i : ℕ)
    (hn : ∀ x y, 0 ≤ st.nutrients x y) :
    ∀ x y, 0 ≤ (phaseEat st i).nutrients x y := by
  unfold phaseEat
  split
  · exact hn
  · next a _ =>
      split
      · exact hn
      · intro x y
        dsimp only
        split
        · next hcond =>
            rw [hcond.1, hcond.2]
            exact sub_nonneg.mpr (min_le_left _ _)
        · exact hn x y

theorem stepAgent_nutrients_nonneg (night : Bool) (r : AgentRand) (st : TickState) (i : ℕ)
    (hn : ∀ x y, 0 ≤ st.nutrients x y) :
    ∀ x y, 0 ≤ (stepAgent night r st i).nutrients x y := by
  unfold stepAgent
  intro x y
  rw [phaseEnd_nutrients, phaseRepro_nutrients]
  refine phaseEat_nutrients_nonneg _ _ ?_ x y
  intro p q
  rw [phaseMove_nutrients, phaseColony_nutrients, phasePhoto_nutrients]
  exact hn p q

theorem runLoop_nutrients_nonneg (night : Bool) (rand : ℕ → AgentRand) (st : TickState)
    (n0 : ℕ) (hn : ∀ x y, 0 ≤ st.nutrients x y) :
    ∀ x y, 0 ≤ (runLoop night rand st n0).nutrients x y := by
  unfold runLoop
  exact foldl_inv (fun s => ∀ x y, 0 ≤ s.nutrients x y) _
    (fun s i hs => stepAgent_nutrients_nonneg night (rand i) s i hs) _ st hn

/-- Corpse recycling only adds nutrient, so nonnegativity survives it. -/
theorem recycleDead_nonneg (st : TickState) (hn : ∀ x y, 0 ≤ st.nutrients x y) :
    ∀ x y, 0 ≤ recycleDead st x y := by
  unfold recycleDead
  refine foldl_inv (fun g => ∀ x y, 0 ≤ g x y) _ ?_ st.dead st.nutrients hn
  intro g j hg
  intro x y
  cases hj : st.agents.get? j with
  | none => simp only [hj]; exact hg x y
  | some c =>
      simp only [hj]
      split
      · have : (0 : ℚ) ≤ DEAD_BODY_NUTRIENT := by norm_num [DEAD_BODY_NUTRIENT]
        exact add_nonneg (hg x y) this
      · exact hg x y

/-! ## Dead agents stay dead through the rest of the tick -/

/-- Index `j` of the store holds an agent already marked dead. -/
def DeadIdx (st : TickState) (j : ℕ) : Prop :=
  ∃ a, st.agents.get? j = some a ∧ a.is_alive = false

theorem deadIdx_set (l : List Agent) (j i : ℕ) (v : Agent)
    (hd : ∃ a, l.get? j = some a ∧ a.is_alive = false)
    (hv : v.is_alive = false ∨ ∃ w, l.get? i = some w ∧ v.is_alive = w.is_alive) :
    ∃ a, (l.set i v).get? j = some a ∧ a.is_alive = false := by
  obtain ⟨a, hja, hdead⟩ := hd
  by_cases hij : i = j
  · subst hij
    refine ⟨v, getq_set_self _ _ _ (getq_some_lt _ _ hja), ?_⟩
    rcases hv with h | ⟨w, hw, hvw⟩
    · exact h
    · rw [hja] at hw
      rw [hvw, ← Option.some.inj hw]
      exact hdead
  · exact ⟨a, by rw [getq_set_ne _ _ _ _ hij]; exact hja, hdead⟩

theorem deadIdx_append (l l2 : List Agent) (j : ℕ)
    (hd : ∃ a, l.get? j = some a ∧ a.is_alive = false) :
    ∃ a, (l ++ l2).get? j = some a ∧ a.is_alive = false := by
  obtain ⟨a, hja, hdead⟩ := hd
  exact ⟨a, by rw [getq_append_left _ _ _ (getq_some_lt _ _ hja)]; exact hja, hdead⟩

theorem phasePhoto_deadIdx (night : Bool) (st : TickState) (i j : ℕ)
    (hd : DeadIdx st j) : DeadIdx (phasePhoto night st i) j := by
  unfold phasePhoto
  split
  · exact hd
  · next a heq => exact deadIdx_set _ _ _ _ hd (Or.inr ⟨a, heq, rfl⟩)

theorem handleColonyIdx_deadIdx (st : TickState) (i : ℕ) (nbrs : List ℕ) (j : ℕ)
    (hd : DeadIdx st j) : DeadIdx (handleColonyIdx st i nbrs).1 j := by
  unfold handleColonyIdx
  split
  · exact hd
  · split
    · exact hd
    · refine foldl_inv (fun acc => DeadIdx acc.1 j) _ ?_ nbrs (st, false) hd
      intro acc k hacc
      dsimp only
      split
      · next s o hs ho =>
          split
          · split
            · refine deadIdx_set _ _ _
                { o with energy := o.energy +
                    (s.energy - o.energy) * COLONY_SHARING_RATE * (1/2) }
                (deadIdx_set _ _ _
                  { s with energy := s.energy -
                      (s.energy - o.energy) * COLONY_SHARING_RATE * (1/2) }
                  hacc (Or.inr ⟨s, hs, rfl⟩))
                (Or.inr ?_)
              by_cases hki : k = i
              · subst hki
                refine ⟨_, getq_set_self _ _ _ (getq_some_lt _ _ hs), ?_⟩
                rw [hs] at ho
                rw [Option.some.inj ho]
              · refine ⟨o, ?_, rfl⟩
                rw [getq_set_ne _ _ _ _ (fun h => hki h.symm)]
                exact ho
            · exact hacc
          · exact hacc
      · exact hacc

theorem phaseColony_deadIdx (st : TickState) (i j : ℕ)
    (hd : DeadIdx st j) : DeadIdx (phaseColony st i).1 j := by
  unfold phaseColony
  split
  · exact hd
  · split
    · exact handleColonyIdx_deadIdx _ _ _ _ hd
    · exact hd

theorem resolveMove_deadIdx (st : TickState) (i : ℕ) (a2 : Agent) (tx ty : ℤ) (j : ℕ)
    (hi : st.agents.get? i = some a2) (hd : DeadIdx st j) :
    DeadIdx (resolveMove st i a2 tx ty) j := by
  unfold resolveMove
  split
  · exact deadIdx_set _ _ _ _ hd (Or.inr ⟨a2, hi, rfl⟩)
  · next k hocc =>
      split
      · exact hd
      · next o ho =>
          split
          · next hcond =>
              have hik : i ≠ k := by
                intro hik
                rw [hik, ho] at hi
                have h2 := congrArg Agent.is_predator (Option.some.inj hi)
                rw [hcond.1, hcond.2.1] at h2
                cases h2
              have h1 := deadIdx_set st.agents j k { o with is_alive := false }
                hd (Or.inl rfl)
              have hi1 : (st.agents.set k { o with is_alive := false }).get? i = some a2 := by
                rw [getq_set_ne _ _ _ _ (fun h => hik h.symm)]
                exact hi
              have h2 := deadIdx_set _ j i
                { a2 with energy :=
                    a2.energy + o.energy * PREDATOR_EAT_EFFICIENCY + DEAD_BODY_NUTRIENT }
                h1 (Or.inr ⟨a2, hi1, rfl⟩)
              have hlen : i < (st.agents.set k { o with is_alive := false }).length := by
                rw [List.length_set]
                exact getq_some_lt _ _ hi
              exact deadIdx_set _ j i
                { a2 with
                    energy := a2.energy + o.energy * PREDATOR_EAT_EFFICIENCY +
                      DEAD_BODY_NUTRIENT,
                    x := tx, y := ty }
                h2 (Or.inr ⟨_, getq_set_self _ _ _ hlen, rfl⟩)
          · exact hd

theorem dead_not_in_survivors (st : TickState) (n0 : ℕ) (a : Agent)
    (ha : a.is_alive = false) : a ∉ survivorsPart st n0 := by
  unfold survivorsPart
  intro hmem
  have h2 := (List.mem_filter.mp hmem).2
  rw [ha] at h2
  cases h2

theorem phaseMove_deadIdx (night att : Bool) (r : MoveRand) (st : TickState) (i j : ℕ)
    (hd : DeadIdx st j) : DeadIdx (phaseMove night att r st i) j := by
  unfold phaseMove
  split
  · exact hd
  · next a heq =>
      have hself := sense_and_move_self st.nutrients GRID_WIDTH GRID_HEIGHT night att r a
      have halive : (sense_and_move st.nutrients GRID_WIDTH GRID_HEIGHT
          night att r a).1.is_alive = a.is_alive := by rw [hself]
      have hd1 := deadIdx_set st.agents j i _ hd (Or.inr ⟨a, heq, halive⟩)
      have hi1 : (st.agents.set i (sense_and_move st.nutrients GRID_WIDTH GRID_HEIGHT
          night att r a).1).get? i =
          some (sense_and_move st.nutrients GRID_WIDTH GRID_HEIGHT night att r a).1 :=
        getq_set_self _ _ _ (getq_some_lt _ _ heq)
      exact resolveMove_deadIdx _ i _ _ _ j hi1 hd1

theorem phaseEat_deadIdx (st : TickState) (i j : ℕ)
    (hd : DeadIdx st j) : DeadIdx (phaseEat st i) j := by
  unfold phaseEat
  split
  · exact hd
  · next a heq =>
      split
      · exact hd
      · exact deadIdx_set _ _ _ _ hd (Or.inr ⟨a, heq, rfl⟩)

theorem spawnChild_deadIdx (mr : MutRand) (st : TickState) (i : ℕ) (a : Agent)
    (c : ℤ × ℤ) (j : ℕ) (hi : st.agents.get? i = some a) (hd : DeadIdx st j) :
    DeadIdx (spawnChild mr st i a c) j := by
  unfold spawnChild
  exact deadIdx_append _ _ _ (deadIdx_set _ _ _ _ hd (Or.inr ⟨a, hi, rfl⟩))

theorem reproScan_deadIdx (mr : MutRand) (st : TickState) (i : ℕ) (cs : List (ℤ × ℤ))
    (j : ℕ) (hd : DeadIdx st j) : DeadIdx (reproScan mr st i cs) j := by
  induction cs generalizing st with
  | nil => exact hd
  | cons c rest ih =>
      unfold reproScan
      split
      · split
        · split
          · exact hd
          · next a heq => exact spawnChild_deadIdx _ _ _ _ _ _ heq hd
        · exact ih st hd
      · exact ih st hd

theorem phaseRepro_deadIdx (mr : MutRand) (order : List (Fin 4)) (st : TickState)
    (i j : ℕ) (hd : DeadIdx st j) : DeadIdx (phaseRepro mr order st i) j := by
  unfold phaseRepro
  split
  · exact hd
  · split
    · exact reproScan_deadIdx _ _ _ _ _ hd
    · exact hd

theorem phaseEnd_deadIdx (st : TickState) (i j : ℕ)
    (hd : DeadIdx st j) : DeadIdx (phaseEnd st i) j := by
  unfold phaseEnd
  split
  · exact hd
  · next a heq =>
      dsimp only
      split
      · exact deadIdx_set _ _ _ _ hd (Or.inl rfl)
      · refine deadIdx_set _ _ _ _ hd (Or.inr ⟨a, heq, ?_⟩)
        exact check_evolution_alive a

theorem stepAgent_deadIdx (night : Bool) (r : AgentRand) (st : TickState) (i j : ℕ)
    (hd : DeadIdx st j) : DeadIdx (stepAgent night r st i) j := by
  unfold stepAgent
  exact phaseEnd_deadIdx _ _ _ (phaseRepro_deadIdx _ _ _ _ _ (phaseEat_deadIdx _ _ _
    (phaseMove_deadIdx _ _ _ _ _ _ (phaseColony_deadIdx _ _ _
      (phasePhoto_deadIdx _ _ _ _ hd)))))

/-- Once an agent of the store is marked dead, every later agent turn of
the same tick leaves it dead: nothing in the loop revives an agent. -/
theorem runLoop_deadIdx (night : Bool) (rand : ℕ → AgentRand) (st : TickState)
    (n0 j : ℕ) (hd : DeadIdx st j) : DeadIdx (runLoop night rand st n0) j := by
  unfold runLoop
  exact foldl_inv (fun s => DeadIdx s j) _
    (fun s i hs => stepAgent_deadIdx night (rand i) s i j hs) _ st hd

/-! ## The predation branch of movement resolution -/

/-- The full effect of a firing predation at `resolveMove`: the mover's
record gains `occupant.energy * PREDATOR_EAT_EFFICIENCY +
DEAD_BODY_NUTRIENT` on top of its energy right before the collision and
takes the target cell; the occupant's record is marked dead on the spot;
the index entry of the target cell now names the mover; and no dead-list
entry and no nutrient change is produced by the collision. -/
theorem resolveMove_predation (st : TickState) (i j : ℕ) (a2 o : Agent) (tx ty : ℤ)
    (hi : st.agents.get? i = some a2)
    (hocc : st.occupied (tx, ty) = some j)
    (hj : st.agents.get? j = some o)
    (hpred : a2.is_predator = true) (hprey : o.is_predator = false)
    (halive : o.is_alive = true) (hsize : a2.genes.size > o.genes.size) :
    (resolveMove st i a2 tx ty).agents.get? i =
      some { a2 with
        energy := a2.energy + o.energy * PREDATOR_EAT_EFFICIENCY + DEAD_BODY_NUTRIENT,
        x := tx, y := ty } ∧
    (resolveMove st i a2 tx ty).agents.get? j = some { o with is_alive := false } ∧
    (resolveMove st i a2 tx ty).occupied (tx, ty) = some i ∧
    (resolveMove st i a2 tx ty).dead = st.dead ∧
    (resolveMove st i a2 tx ty).nutrients = st.nutrients := by
  have hij : i ≠ j := by
    intro h
    rw [h, hj] at hi
    have h2 := congrArg Agent.is_predator (Option.some.inj hi)
    rw [hpred, hprey] at h2
    cases h2
  unfold resolveMove
  rw [hocc]
  dsimp only
  rw [hj]
  dsimp only
  rw [if_pos ⟨hpred, hprey, halive, hsize⟩]
  refine ⟨?_, ?_, ?_, rfl, rfl⟩
  · have hlen : i < (st.agents.set j { o with is_alive := false }).length := by
      rw [List.length_set]; exact getq_some_lt _ _ hi
    have hlen2 : i < ((st.agents.set j { o with is_alive := false }).set i
        { a2 with energy :=
            a2.energy + o.energy * PREDATOR_EAT_EFFICIENCY + DEAD_BODY_NUTRIENT }).length := by
      rw [List.length_set]; exact hlen
    exact getq_set_self _ _ _ hlen2
  · rw [getq_set_ne _ _ _ _ hij, getq_set_ne _ _ _ _ hij]
    exact getq_set_self _ _ _ (getq_some_lt _ _ hj)
  · dsimp only
    rw [if_pos rfl]

/-! ## Scenario definitions for the tick-level claims -/

/-- A low-metabolism prey genome with reproduction threshold 10. -/
def gParent : Genes := mkGenes (1/10) 10 1 1 0 0

/-- A prey genome whose reproduction threshold 60 keeps it from
splitting in the scenarios. -/
def gPreyB : Genes := mkGenes (1/10) 60 1 1 0 0

/-- A size-3 genome for the scenario predators. -/
def gPred : Genes := mkGenes (1/10) 60 1 3 0 0

/-- A maximal-metabolism genome: its bearer starves within one night
tick. -/
def gStarver : Genes := mkGenes 2 10 1 1 0 0

/-- The scenario randomness: prey always skip their night move
(`nightRoll = 1 > NIGHT_MOVE_CHANCE`), no random walk (`walkRoll = 1`),
identity reproduction shuffle, and mutation rolls 1 (no gene fires,
`1 ≥ MUTATION_RATE`). -/
def randSC : ℕ → AgentRand :=
  fun _ => ⟨⟨1, 1, 1, 1⟩, [0, 1, 2, 3], ⟨1, 0, 1, 0, 1, 0, 1, 0, 1, 0, 1, 0⟩⟩

/-! ## C3: nutrient-field bounds -/

/-- The C3 environment: a full field (every cell at MAX_NUTRIENT) and
one starving prey at `(0,0)` during night (tick 401 of the 600-cycle). -/
def envC3 : Env :=
  { nutrients := fun _ _ => 10,
    agents := [mkAgent 0 0 (1/10) false gStarver],
    global_time := 400, is_night := false }

/-- C3 counterexample: starting from the everywhere-in-range field of
`envC3` (all cells at MAX_NUTRIENT = 10), one `update_agents` tick ends
with cell `(0,0)` at 13 > MAX_NUTRIENT: the agent starves there (energy
0.1 − 2·1.5 + 2 < 0) and its corpse deposit of DEAD_BODY_NUTRIENT = 5 is
applied with no clamp. -/
theorem C3_counterexample :
    (update_agents randSC envC3).nutrients 0 0 = 13 ∧
    MAX_NUTRIENT < (update_agents randSC envC3).nutrients 0 0 ∧
    (update_agents randSC envC3).agents.length = 0 := by
  with_unfolding_all decide

/-- C3 (corrected).  Nutrient-field bounds: after every
`update_nutrients` call — at the config constants or any others — every
cell lies in `[0, MAX_NUTRIENT]`, for any prior state; the per-tick
agent update preserves nonnegativity of every cell (eating removes at
most what a cell holds, corpse recycling only adds), but its corpse
deposits are unclamped, so the upper bound can be exceeded there (see
the counterexample). -/
theorem C3_nutrient_field_bounds :
    (∀ (u g : ℤ → ℤ → ℚ) (x y : ℤ),
      0 ≤ update_nutrients u g x y ∧ update_nutrients u g x y ≤ MAX_NUTRIENT) ∧
    (∀ (rate k decay : ℚ) (u g : ℤ → ℤ → ℚ) (x y : ℤ),
      0 ≤ updateNutrientsWith rate k decay u g x y ∧
        updateNutrientsWith rate k decay u g x y ≤ MAX_NUTRIENT) ∧
    (∀ (rand : ℕ → AgentRand) (e : Env), (∀ x y, 0 ≤ e.nutrients x y) →
      ∀ x y, 0 ≤ (update_agents rand e).nutrients x y) := by
  refine ⟨?_, ?_, ?_⟩
  · intro u g x y
    exact updateNutrientsWith_bounds NUTRIENT_SPAWN_RATE DIFFUSION_FACTOR NUTRIENT_DECAY
      u g x y
  · intro rate k decay u g x y
    exact updateNutrientsWith_bounds rate k decay u g x y
  · intro rand e hn x y
    exact recycleDead_nonneg _
      (runLoop_nutrients_nonneg _ rand (initTick e) e.agents.length hn) x y

/-- C3 witness: the agent-update part applied to the concrete `envC3`
(whose field is the in-range constant 10), evaluated at cell `(0,0)`. -/
theorem C3_nutrient_field_bounds_witness :
    0 ≤ (update_agents randSC envC3).nutrients 0 0 :=
  C3_nutrient_field_bounds.2.2 randSC envC3 (fun _ _ => by norm_num [envC3]) 0 0

/-! ## C5: corpse recycling -/

/-- The number of recorded corpses whose final coordinates are `(x, y)`. -/
def corpseCount (st : TickState) (x y : ℤ) : ℕ :=
  st.dead.countP fun j =>
    match st.agents.get? j with
    | some c => decide (x = c.x ∧ y = c.y)
    | none => false

theorem recycle_fold_formula (agents : List Agent) (x y : ℤ) :
    ∀ (ds : List ℕ) (g : ℤ → ℤ → ℚ),
      (ds.foldl
        (fun g j =>
          match agents.get? j with
          | some c => fun p q =>
              if p = c.x ∧ q = c.y then g p q + DEAD_BODY_NUTRIENT else g p q
          | none => g)
        g) x y =
      g x y + DEAD_BODY_NUTRIENT *
        ((ds.countP fun j =>
          match agents.get? j with
          | some c => decide (x = c.x ∧ y = c.y)
          | none => false : ℕ) : ℚ) := by
  intro ds
  induction ds with
  | nil => intro g; simp
  | cons j ds ih =>
      intro g
      rw [List.foldl_cons, ih, List.countP_cons]
      cases hj : agents.get? j with
      | none => simp [hj]
      | some c =>
          by_cases hxy : x = c.x ∧ y = c.y
          · simp only [hj, if_pos hxy, decide_eq_true hxy, if_true]
            push_cast
            ring
          · simp only [hj, if_neg hxy, decide_eq_false hxy, Bool.false_eq_true, if_false]
            push_cast
            ring

/-- C5 (corrected).  Corpse recycling covers exactly the starvation
deaths: at tick end every cell receives DEAD_BODY_NUTRIENT once per
recorded corpse lying there, and the dead list records precisely the
agents whose energy was ≤ 0 at their own death check — the movement
phase (and in particular a firing predation) never records a corpse, so
an agent consumed by a predator deposits nothing (the predator already
received its DEAD_BODY_NUTRIENT as part of eat_gain). -/
theorem C5_corpse_recycling :
    (∀ (st : TickState) (x y : ℤ),
      recycleDead st x y = st.nutrients x y +
        DEAD_BODY_NUTRIENT * (corpseCount st x y : ℚ)) ∧
    (∀ (st : TickState) (i : ℕ) (a : Agent), st.agents.get? i = some a →
      (phaseEnd st i).dead = st.dead ++ (if a.energy ≤ 0 then [i] else [])) ∧
    (∀ (st : TickState) (i : ℕ) (a2 : Agent) (tx ty : ℤ),
      (resolveMove st i a2 tx ty).dead = st.dead) ∧
    (∀ (night : Bool) (st : TickState) (i : ℕ), (phasePhoto night st i).dead = st.dead) ∧
    (∀ (st : TickState) (i : ℕ), (phaseColony st i).1.dead = st.dead) ∧
    (∀ (night att : Bool) (r : MoveRand) (st : TickState) (i : ℕ),
      (phaseMove night att r st i).dead = st.dead) ∧
    (∀ (st : TickState) (i : ℕ), (phaseEat st i).dead = st.dead) ∧
    (∀ (mr : MutRand) (order : List (Fin 4)) (st : TickState) (i : ℕ),
      (phaseRepro mr order st i).dead = st.dead) := by
  refine ⟨?_, phaseEnd_dead, resolveMove_dead, phasePhoto_dead, phaseColony_dead,
    phaseMove_dead, phaseEat_dead, phaseRepro_dead⟩
  intro st x y
  exact recycle_fold_formula st.agents x y st.dead st.nutrients

/-- The C5 environment: prey (iterated first, staying alive through its
own death check) at `(1,0)`, predator at `(2,0)`, empty field, night. -/
def envC5 : Env :=
  { nutrients := fun _ _ => 0,
    agents := [mkAgent 1 0 20 false gPreyB, mkAgent 2 0 10 true gPred],
    global_time := 400, is_night := false }

/-- C5 counterexample: in `envC5` the prey is consumed by the predator
after its own turn already ran; it is gone from the population at tick
end, yet its cell `(1,0)` receives no DEAD_BODY_NUTRIENT deposit — the
final field is still 0 there. -/
theorem C5_counterexample :
    (update_agents randSC envC5).agents.length = 1 ∧
    ((update_agents randSC envC5).agents.getD 0 dA).is_predator = true ∧
    (update_agents randSC envC5).nutrients 1 0 = 0 ∧
    (update_agents randSC envC5).nutrients 1 0 ≠ DEAD_BODY_NUTRIENT := by
  with_unfolding_all decide

/-- A one-agent state whose agent has already starved (energy -1). -/
def stW5 : TickState :=
  { nutrients := fun _ _ => 0, agents := [mkAgent 0 0 (-1) false gParent],
    occupied := fun _ => none, dead := [] }

/-- C5 witness: the death-check characterization applied to a concrete
starving agent. -/
theorem C5_corpse_recycling_witness : (phaseEnd stW5 0).dead = [0] := by
  rw [C5_corpse_recycling.2.1 stW5 0 (mkAgent 0 0 (-1) false gParent) rfl]
  with_unfolding_all decide

/-! ## C1: energy conservation at predation -/

/-- The C1 environment: parent prey (energy 50, threshold 10) at `(0,0)`
reproduces into `(1,0)` during its turn; the predator at `(2,0)` then
senses the nutrient at `(1,0)` and moves onto the fresh newborn. -/
def envC1 : Env :=
  { nutrients := fun x y => if x = 1 ∧ y = 0 then 10 else 0,
    agents := [mkAgent 0 0 50 false gParent, mkAgent 2 0 20 true gPred],
    global_time := 400, is_night := false }

/-- C1 counterexample: in `envC1` predation fires against a same-tick
newborn (the parent's child at `(1,0)`, energy 997/40).  The mover's
energy equation holds exactly — its final energy is its pre-collision
energy `20 - 3/20 - 1/20` plus `997/40 * PREDATOR_EAT_EFFICIENCY +
DEAD_BODY_NUTRIENT` — but the consumed occupant is NOT absent from the
population produced at the end of the tick: newborns are appended
unfiltered, so the dead child is its third member. -/
theorem C1_counterexample :
    (update_agents randSC envC1).agents.map (fun a => a.is_alive) = [true, true, false] ∧
    ((update_agents randSC envC1).agents.getD 1 dA).energy =
      (20 - 3/20 - 1/20) + ((997/40) * PREDATOR_EAT_EFFICIENCY + DEAD_BODY_NUTRIENT) ∧
    ((update_agents randSC envC1).agents.getD 2 dA).energy = 997/40 ∧
    ((update_agents randSC envC1).agents.getD 2 dA).x = 1 ∧
    ((update_agents randSC envC1).agents.getD 2 dA).y = 0 ∧
    ((update_agents randSC envC1).agents.getD 2 dA).is_alive = false := by
  with_unfolding_all decide

/-- C1 (corrected).  Energy conservation at predation: whenever a firing
predation resolves (occupied target, predator mover, live non-predator
occupant, strictly larger mover size), the mover's energy immediately
afterwards is exactly its energy immediately before plus
`occupant.energy * PREDATOR_EAT_EFFICIENCY + DEAD_BODY_NUTRIENT`, and
the occupant is marked dead on the spot; the dead mark survives the rest
of the loop, and a dead agent is excluded from the survivor part of the
tick's final population — so an occupant from the tick-start population
is gone from the resulting population, while a same-tick newborn victim
(appended unfiltered) remains in it despite being dead. -/
theorem C1_energy_conservation_at_predation :
    (∀ (st : TickState) (i j : ℕ) (a2 o : Agent) (tx ty : ℤ),
      st.agents.get? i = some a2 → st.occupied (tx, ty) = some j →
      st.agents.get? j = some o →
      a2.is_predator = true → o.is_predator = false → o.is_alive = true →
      a2.genes.size > o.genes.size →
      (resolveMove st i a2 tx ty).agents.get? i =
        some { a2 with
          energy := a2.energy + o.energy * PREDATOR_EAT_EFFICIENCY + DEAD_BODY_NUTRIENT,
          x := tx, y := ty } ∧
      (resolveMove st i a2 tx ty).agents.get? j = some { o with is_alive := false }) ∧
    (∀ (night : Bool) (rand : ℕ → AgentRand) (st : TickState) (n0 j : ℕ),
      DeadIdx st j → DeadIdx (runLoop night rand st n0) j) ∧
    (∀ (st : TickState) (n0 : ℕ) (a : Agent),
      a.is_alive = false → a ∉ survivorsPart st n0) := by
  refine ⟨?_, runLoop_deadIdx, dead_not_in_survivors⟩
  intro st i j a2 o tx ty hi hocc hj hpred hprey halive hsize
  have h := resolveMove_predation st i j a2 o tx ty hi hocc hj hpred hprey halive hsize
  exact ⟨h.1, h.2.1⟩

/-- A state for the predation witnesses: predator (index 0) at `(2,0)`,
prey (index 1) at `(1,0)`, both registered in the index. -/
def stW1 : TickState :=
  { nutrients := fun _ _ => 0,
    agents := [mkAgent 2 0 10 true gPred, mkAgent 1 0 20 false gPreyB],
    occupied := fun p => if p = (1, 0) then some 1 else
      if p = (2, 0) then some 0 else none,
    dead := [] }

/-- C1 witness: the predation equation evaluated on `stW1` with the
predator moving onto the prey's cell. -/
theorem C1_energy_conservation_at_predation_witness :
    (resolveMove stW1 0 (mkAgent 2 0 10 true gPred) 1 0).agents.get? 0 =
      some { mkAgent 2 0 10 true gPred with
        energy := (mkAgent 2 0 10 true gPred).energy +
          (mkAgent 1 0 20 false gPreyB).energy * PREDATOR_EAT_EFFICIENCY +
          DEAD_BODY_NUTRIENT,
        x := 1, y := 0 } :=
  (C1_energy_conservation_at_predation.1 stW1 0 1
    (mkAgent 2 0 10 true gPred) (mkAgent 1 0 20 false gPreyB) 1 0
    rfl (by with_unfolding_all decide) rfl rfl rfl rfl
    (by with_unfolding_all decide)).1

/-! ## C6: a predation victim and the rest of its tick -/

/-- The C6 environment: the predator is iterated first and consumes the
prey at `(1,0)`; the prey's own turn has not run yet when it is marked
dead. -/
def envC6 : Env :=
  { nutrients := fun x y => if x = 1 ∧ y = 0 then 4 else 0,
    agents := [mkAgent 2 0 10 true gPred, mkAgent 1 0 20 false gPreyB],
    global_time := 400, is_night := false }

/-- C6 counterexample: in `envC6` the prey at `(1,0)` is marked dead by
predation before its own turn, yet its turn still runs in full: the dead
prey deducts its night metabolism and eats 2.0 nutrient from `(1,0)`,
leaving the cell at 2 instead of 4.  The final population is the
predator alone, so the only non-predator that could have eaten — and
did — was dead when it ate. -/
theorem C6_counterexample :
    (update_agents randSC envC6).agents.length = 1 ∧
    ((update_agents randSC envC6).agents.getD 0 dA).is_predator = true ∧
    (update_agents randSC envC6).nutrients 1 0 = 2 := by
  with_unfolding_all decide

/-- C6 (corrected).  Once an agent is marked dead by predation, the
mover overwrites its index entry at the kill cell, its dead mark is
never reverted by any later agent turn of the same tick, and (if it is a
tick-start agent) it is excluded from the survivor part of the final
population; the per-agent loop itself, however, never tests `is_alive`,
so a victim whose own turn has not yet run still performs it in full
(see the counterexample). -/
theorem C6_predation_victim_out_of_play :
    (∀ (st : TickState) (i j : ℕ) (a2 o : Agent) (tx ty : ℤ),
      st.agents.get? i = some a2 → st.occupied (tx, ty) = some j →
      st.agents.get? j = some o →
      a2.is_predator = true → o.is_predator = false → o.is_alive = true →
      a2.genes.size > o.genes.size →
      (resolveMove st i a2 tx ty).occupied (tx, ty) = some i ∧
      (resolveMove st i a2 tx ty).agents.get? j = some { o with is_alive := false }) ∧
    (∀ (night : Bool) (r : AgentRand) (st : TickState) (i j : ℕ),
      DeadIdx st j → DeadIdx (stepAgent night r st i) j) ∧
    (∀ (st : TickState) (n0 : ℕ) (a : Agent),
      a.is_alive = false → a ∉ survivorsPart st n0) := by
  refine ⟨?_, stepAgent_deadIdx, dead_not_in_survivors⟩
  intro st i j a2 o tx ty hi hocc hj hpred hprey halive hsize
  have h := resolveMove_predation st i j a2 o tx ty hi hocc hj hpred hprey halive hsize
  exact ⟨h.2.2.1, h.2.1⟩

/-- C6 witness: on `stW1`, after the predator takes `(1,0)`, the index
entry there names the predator and the prey's record is dead. -/
theorem C6_predation_victim_out_of_play_witness :
    (resolveMove stW1 0 (mkAgent 2 0 10 true gPred) 1 0).occupied (1, 0) = some 0 ∧
    (resolveMove stW1 0 (mkAgent 2 0 10 true gPred) 1 0).agents.get? 1 =
      some { mkAgent 1 0 20 false gPreyB with is_alive := false } :=
  C6_predation_victim_out_of_play.1 stW1 0 1
    (mkAgent 2 0 10 true gPred) (mkAgent 1 0 20 false gPreyB) 1 0
    rfl (by with_unfolding_all decide) rfl rfl rfl rfl
    (by with_unfolding_all decide)

/-! ## C7: reproduction is an exact half-split -/

/-- C7 (confirmed).  When reproduction fires, the parent keeps exactly
half its energy, the child receives exactly the other half (so
parent-after plus child equals parent-before, exactly), the child's
generation is the parent's plus one, the parent's offspring_count is
bumped; and one agent turn grows the population by at most one agent. -/
theorem C7_reproduction_half_split :
    (∀ (mr : MutRand) (st : TickState) (i : ℕ) (a : Agent) (c : ℤ × ℤ),
      st.agents.get? i = some a →
      (spawnChild mr st i a c).agents.get? i =
        some { a with
          energy := a.energy / 2,
          offspring_count := a.offspring_count + 1 } ∧
      (spawnChild mr st i a c).agents.get? st.agents.length =
        some { x := c.1, y := c.2, energy := a.energy / 2, age := 0,
               generation := a.generation + 1, is_alive := true, is_predator := false,
               offspring_count := 0, genes := mutate_genes mr a.genes } ∧
      a.energy / 2 + a.energy / 2 = a.energy) ∧
    (∀ (night : Bool) (r : AgentRand) (st : TickState) (i : ℕ),
      (stepAgent night r st i).agents.length ≤ st.agents.length + 1) := by
  constructor
  · intro mr st i a c hi
    have hlen : i < (st.agents.set i { a with
        energy := a.energy / 2,
        offspring_count := a.offspring_count + 1 }).length := by
      rw [List.length_set]; exact getq_some_lt _ _ hi
    refine ⟨?_, ?_, by ring⟩
    · unfold spawnChild
      rw [getq_append_left _ _ _ hlen]
      exact getq_set_self _ _ _ (getq_some_lt _ _ hi)
    · unfold spawnChild
      have h := getq_concat_self (st.agents.set i { a with
          energy := a.energy / 2,
          offspring_count := a.offspring_count + 1 })
        { x := c.1, y := c.2, energy := a.energy / 2, age := 0,
          generation := a.generation + 1, is_alive := true, is_predator := false,
          offspring_count := 0, genes := mutate_genes mr a.genes }
      rw [List.length_set] at h
      exact h
  · intro night r st i
    unfold stepAgent
    rw [phaseEnd_length]
    calc (phaseRepro r.mutDraws r.reproOrder
          (phaseEat (phaseMove night (phaseColony (phasePhoto night st i) i).2 r.move
            (phaseColony (phasePhoto night st i) i).1 i) i) i).agents.length
        ≤ (phaseEat (phaseMove night (phaseColony (phasePhoto night st i) i).2 r.move
            (phaseColony (phasePhoto night st i) i).1 i) i).agents.length + 1 :=
          phaseRepro_length _ _ _ _
      _ = st.agents.length + 1 := by
          rw [phaseEat_length, phaseMove_length, phaseColony_length, phasePhoto_length]

/-- C7 witness: a concrete parent with energy 40 splitting into `(1,0)`. -/
theorem C7_reproduction_half_split_witness :
    (spawnChild ⟨1, 0, 1, 0, 1, 0, 1, 0, 1, 0, 1, 0⟩
        { nutrients := fun _ _ => 0, agents := [mkAgent 0 0 40 false gParent],
          occupied := fun _ => none, dead := [] }
        0 (mkAgent 0 0 40 false gParent) (1, 0)).agents.get? 0 =
      some { mkAgent 0 0 20 false gParent with offspring_count := 1 } := by
  have h := (C7_reproduction_half_split.1 ⟨1, 0, 1, 0, 1, 0, 1, 0, 1, 0, 1, 0⟩
    { nutrients := fun _ _ => 0, agents := [mkAgent 0 0 40 false gParent],
      occupied := fun _ => none, dead := [] }
    0 (mkAgent 0 0 40 false gParent) (1, 0) rfl).1
  rw [h]
  with_unfolding_all decide
